import Mathlib

/-!
Verification development for the `gametrack-data` exporter
(`src/gametrack_data.py`).

The Python program is shallowly embedded: pure helpers become Lean
functions, SQLite rows and remote-API responses become explicit data
passed in as arguments, Python exceptions become `Except`/`Option`
results, Python `int` becomes `Int`, Python `float` becomes `ℚ`, and
Python dictionaries become insertion-ordered association lists with
Python assignment semantics.  External libraries (the `csv` module, the
`plistlib` parser, the GitHub HTTP API) are modelled at their interface
boundary; everything the repository's own code does is translated
directly from the source.
-/

/-! ### Decimal rendering and parsing (models Python `str` on `int` and `int` on `str`) -/

/-! ### Python dictionaries as insertion-ordered association lists -/

/-- The decimal digit character for a value `0 ≤ d ≤ 9` (values above nine
clamp to `'9'`; all uses have `d < 10`). -/
def digitChar : Nat → Char
  | 0 => '0'
  | 1 => '1'
  | 2 => '2'
  | 3 => '3'
  | 4 => '4'
  | 5 => '5'
  | 6 => '6'
  | 7 => '7'
  | 8 => '8'
  | _ => '9'

/-- Numeric value of a decimal digit character. -/
def digitVal (c : Char) : Nat := c.toNat - 48

/-- Decimal digit conversion, structurally recursive on a fuel bound (so
that the kernel can evaluate it); `natChars` instantiates the fuel. -/
def natCharsAux : Nat → Nat → List Char
  | 0, n => [digitChar n]
  | fuel + 1, n =>
    if n < 10 then [digitChar n]
    else natCharsAux fuel (n / 10) ++ [digitChar (n % 10)]

/-- Decimal digit list of a natural number, most significant first. -/
def natChars (n : Nat) : List Char := natCharsAux n n

/-- Value of a digit-character list read as a decimal numeral. -/
def strVal (cs : List Char) : Nat :=
  cs.foldl (fun a c => 10 * a + digitVal c) 0

/-- Decimal rendering of a natural number, models Python `str(n)` for `n ≥ 0`. -/
def natStr (n : Nat) : String := ⟨natChars n⟩

/-- Decimal rendering of an integer, models Python `str(n)`. -/
def intStr (n : Int) : String :=
  if n < 0 then "-" ++ natStr (-n).toNat else natStr n.toNat

/-- Parse a nonempty all-digit character list, else `none`. -/
def parseDigits (cs : List Char) : Option Nat :=
  if cs = [] then none
  else if cs.all Char.isDigit then some (strVal cs) else none

/-- Models Python `int(s)` on decimal strings: optional sign followed by
digits; any other shape raises `ValueError`, modelled as `none`. -/
def pyParseInt (s : String) : Option Int :=
  match s.data with
  | '-' :: rest => (parseDigits rest).map (fun n => -(n : Int))
  | '+' :: rest => (parseDigits rest).map (fun n => (n : Int))
  | cs => (parseDigits cs).map (fun n => (n : Int))

/-- Lookup in an association list (first matching key). -/
def dlookup {K V : Type} [DecidableEq K] (k : K) : List (K × V) → Option V
  | [] => none
  | p :: d => if p.1 = k then some p.2 else dlookup k d

/-- Keys of an association list, in order. -/
def dkeys {K V : Type} (d : List (K × V)) : List K := d.map Prod.fst

/-- Python `d[k] = v`: update in place when the key exists, else append. -/
def pyDictInsert {K V : Type} [DecidableEq K] (d : List (K × V)) (k : K) (v : V) :
    List (K × V) :=
  if (dlookup k d).isSome then d.map (fun p => if p.1 = k then (p.1, v) else p)
  else d ++ [(k, v)]

/-- Fold inserting value `v0` for every key in `ks` (in order). -/
def dinsertAll {K V : Type} [DecidableEq K] (ks : List K) (v0 : V)
    (d : List (K × V)) : List (K × V) :=
  ks.foldl (fun d k => pyDictInsert d k v0) d


/-! ### Timestamps: `_from_coredata_timestamp` and `_format_timestamp` -/

/-- Unix seconds of the instant produced by `_from_coredata_timestamp`: the
source computes `datetime.fromtimestamp(timestamp + 978307200, tz=utc)`, an
instant `timestamp + 978307200` seconds past the 1970 epoch. -/
def fromCoredataUnixSeconds (t : ℚ) : ℚ := t + 978307200

/-- Modelled from the spec: the inverse epoch shift ("encode"), subtracting
the fixed offset 978307200.  The repository itself has no encoder; the
spec round-trip property defines it. -/
def encodeCoredataTimestamp (u : ℚ) : ℚ := u - 978307200

/-- A `datetime.datetime` value (UTC), by components. -/
structure PyDateTime where
  year : Int
  month : Int
  day : Int
  hour : Int
  minute : Int
  second : Int
  microsecond : Int
deriving DecidableEq

/-- Round to nearest integer, ties to even (Python's `round`, used by
`datetime` when converting fractional seconds to microseconds). -/
def roundHalfEven (q : ℚ) : Int :=
  let f := ⌊q⌋
  if 2 * (q - f) < 1 then f
  else if 1 < 2 * (q - f) then f + 1
  else if f % 2 = 0 then f else f + 1

/-- Proleptic Gregorian date of a day count from 1970-01-01 (the civil
calendar arithmetic inside `datetime.fromtimestamp`). -/
def civilFromDays (z0 : Int) : Int × Int × Int :=
  let z := z0 + 719468
  let era := z / 146097
  let doe := z - era * 146097
  let yoe := (doe - doe / 1460 + doe / 36524 - doe / 146096) / 365
  let y := yoe + era * 400
  let doy := doe - (365 * yoe + yoe / 4 - yoe / 100)
  let mp := (5 * doy + 2) / 153
  let d := doy - (153 * mp + 2) / 5 + 1
  let m := mp + (if mp < 10 then 3 else -9)
  (y + (if m ≤ 2 then 1 else 0), m, d)

/-- `datetime.fromtimestamp(u, tz=datetime.timezone.utc)` on a rational
number of seconds: round to microseconds, then split into calendar fields. -/
def datetimeFromUnix (u : ℚ) : PyDateTime :=
  let us := roundHalfEven (u * 1000000)
  let s := us / 1000000
  let usec := us % 1000000
  let days := s / 86400
  let sod := s % 86400
  let c := civilFromDays days
  ⟨c.1, c.2.1, c.2.2, sod / 3600, (sod % 3600) / 60, sod % 60, usec⟩

/-- `_from_coredata_timestamp`: shift from the 2001 epoch and build the
UTC datetime. -/
def fromCoredataTimestamp (t : ℚ) : PyDateTime :=
  datetimeFromUnix (fromCoredataUnixSeconds t)

/-- Left-pad the decimal rendering of a nonnegative integer with zeros. -/
def padZeros (w : Nat) (n : Int) : String :=
  let s := natStr n.toNat
  ⟨List.replicate (w - s.data.length) '0'⟩ ++ s

/-- `_format_timestamp`: ISO-8601 with millisecond precision, `+00:00`
replaced by a literal `Z`. -/
def formatTimestamp (dt : PyDateTime) : String :=
  padZeros 4 dt.year ++ "-" ++ padZeros 2 dt.month ++ "-" ++ padZeros 2 dt.day ++
    "T" ++ padZeros 2 dt.hour ++ ":" ++ padZeros 2 dt.minute ++ ":" ++
    padZeros 2 dt.second ++ "." ++ padZeros 3 (dt.microsecond / 1000) ++ "Z"

/-! ### Enumerations and the canonical record -/

/-- `GAME_STATUS_ENUM`: the fixed six-entry status code table. -/
def GAME_STATUS_ENUM : List (Int × String) :=
  [(1, "In Progress"), (2, "Queued"), (3, "Collection"), (4, "Completed"),
   (5, "Abandoned"), (6, "Wanted")]

/-- The six status literals, in table order. -/
def gameStatusValues : List String := GAME_STATUS_ENUM.map Prod.snd

/-- `RATINGS_ENUM`: the fixed ten-point rating scale. -/
def RATINGS_ENUM : List Int := [1, 2, 3, 4, 5, 6, 7, 8, 9, 10]

/-- `GAME_FIELDS`: the canonical column order of the tabular output. -/
def GAME_FIELDS : List String :=
  ["uuid", "igdb_id", "wikidata_qid", "title", "summary", "developer",
   "publisher", "poster_url", "banner_url", "release_date", "release_year",
   "platforms", "owned_platform", "additional_platforms", "status",
   "game_state", "completion_state", "completion", "priority", "format",
   "user_rating", "critic_rating", "hours_played", "additional_playtime",
   "start_date", "finish_date", "added_date", "notes", "review",
   "review_spoilers", "time_to_beat_story", "time_to_beat_extras",
   "time_to_beat_complete", "time_to_beat_type", "steam_deck_status",
   "genres"]

/-- The `Game` TypedDict: one canonical record. -/
structure Game where
  uuid : String
  igdb_id : Int
  wikidata_qid : String
  title : String
  summary : String
  developer : String
  publisher : String
  poster_url : String
  banner_url : String
  release_date : String
  release_year : Int
  platforms : String
  owned_platform : String
  additional_platforms : String
  status : String
  game_state : Int
  completion_state : Int
  completion : Int
  priority : Int
  format : Int
  user_rating : Int
  critic_rating : Int
  hours_played : ℚ
  additional_playtime : ℚ
  start_date : String
  finish_date : String
  added_date : String
  notes : String
  review : String
  review_spoilers : String
  time_to_beat_story : ℚ
  time_to_beat_extras : ℚ
  time_to_beat_complete : ℚ
  time_to_beat_type : Int
  steam_deck_status : Int
  genres : String
deriving DecidableEq

/-! ### `_blob_to_uuid` -/

/-- Uppercase hexadecimal digit. -/
def hexChar (n : Nat) : Char :=
  if n < 10 then digitChar n
  else if n = 10 then 'A'
  else if n = 11 then 'B'
  else if n = 12 then 'C'
  else if n = 13 then 'D'
  else if n = 14 then 'E'
  else 'F'

/-- Two uppercase hex digits of one byte. -/
def byteHex (b : Nat) : List Char := [hexChar (b / 16 % 16), hexChar (b % 16)]

/-- `_blob_to_uuid`: empty/`None`/wrong-length blobs give `""`, otherwise
the canonical 8-4-4-4-12 UUID string, uppercased. -/
def blobToUuid (blob : Option (List Nat)) : String :=
  match blob with
  | none => ""
  | some bs =>
    if bs.length ≠ 16 then ""
    else
      let all := (bs.map byteHex).flatten
      ⟨all.take 8⟩ ++ "-" ++ ⟨(all.drop 8).take 4⟩ ++ "-" ++
        ⟨(all.drop 12).take 4⟩ ++ "-" ++ ⟨(all.drop 16).take 4⟩ ++ "-" ++
        ⟨all.drop 20⟩

/-! ### `_decode_nskeyed_array` -/

/-- A parsed property-list value (the possible results of `plistlib.loads`). -/
inductive PVal where
  | str (s : String)
  | int (n : Int)
  | real (q : ℚ)
  | bool (b : Bool)
  | data (bs : List Nat)
  | uid (n : Nat)
  | arr (xs : List PVal)
  | dict (xs : List (String × PVal))

/-- Python exception kinds that the embedded code can raise. -/
inductive PyErr where
  | attributeError
  | typeError
  | keyError
  | indexError
  | assertionError
  | valueError
deriving DecidableEq

/-- Python `v.get(key, default)`: only dictionaries have `.get`; anything
else raises `AttributeError`. -/
def pyGetDefault (v : PVal) (key : String) (dflt : PVal) : Except PyErr PVal :=
  match v with
  | .dict xs => pure ((dlookup key xs).getD dflt)
  | _ => .error .attributeError

/-- Python `len(v)` on plist values. -/
def pyLen : PVal → Except PyErr Nat
  | .str s => pure s.length
  | .data bs => pure bs.length
  | .arr xs => pure xs.length
  | .dict xs => pure xs.length
  | _ => .error .typeError

/-- Python `v[i]` for a natural index. -/
def pyIndex (v : PVal) (i : Nat) : Except PyErr PVal :=
  match v with
  | .arr xs =>
    match xs.get? i with
    | some x => pure x
    | none => .error .indexError
  | .str s =>
    match s.data.get? i with
    | some c => pure (.str ⟨[c]⟩)
    | none => .error .indexError
  | .data bs =>
    match bs.get? i with
    | some b => pure (.int b)
    | none => .error .indexError
  | .dict _ => .error .keyError
  | _ => .error .typeError

/-- Python iteration `for x in v`. -/
def pyIter : PVal → Except PyErr (List PVal)
  | .arr xs => pure xs
  | .str s => pure (s.data.map (fun c => .str ⟨[c]⟩))
  | .dict xs => pure (xs.map (fun p => .str p.1))
  | .data bs => pure (bs.map (fun b => .int b))
  | _ => .error .typeError

/-- The outcome of `plistlib.loads` on the raw blob, which this embedding
takes as input: a falsy blob (`None`/`b""`), a parse failure, or a parsed
value.  `plistlib` is an external library, so the byte-level parse itself
sits outside the embedding boundary. -/
inductive BlobData where
  | noneOrEmpty
  | unparseable
  | parsed (v : PVal)

/-- The body of the `try:` block of `_decode_nskeyed_array`, translated
statement by statement; any Python exception comes out as `.error`. -/
def decodeNskeyedBody (plist : PVal) : Except PyErr (List String) := do
  let objects ← pyGetDefault plist "$objects" (.arr [])
  let n ← pyLen objects
  let root ← if 1 < n then pyIndex objects 1 else pure (.dict [])
  let nsObjects ← pyGetDefault root "NS.objects" (.arr [])
  let uids ← pyIter nsObjects
  uids.foldlM (fun acc u =>
    match u with
    | .uid idx => do
      let n2 ← pyLen objects
      if idx < n2 then do
        let obj ← pyIndex objects idx
        match obj with
        | .str s => pure (acc ++ [s])
        | _ => pure acc
      else pure acc
    | _ => pure acc) []

/-- `_decode_nskeyed_array`: falsy input gives `[]`; any exception inside
the `try:` block (including a `plistlib` parse failure) gives `[]`. -/
def decodeNskeyedArray : BlobData → List String
  | .noneOrEmpty => []
  | .unparseable => []
  | .parsed v =>
    match decodeNskeyedBody v with
    | .ok l => l
    | .error _ => []

/-- The object table of a parsed graph: the `$objects` entry when the graph
is a dictionary holding an array there, else the empty table.  Used to
state which strings the decoder may return. -/
def objectsTableOf (v : PVal) : List PVal :=
  match v with
  | .dict xs =>
    match (dlookup "$objects" xs).getD (.arr []) with
    | .arr os => os
    | _ => []
  | _ => []


/-! ### `_load_wikidata_items` (knowledge-base reconciler) -/

/-- Split a character list at every occurrence of `sep` (Python
`str.split` with a one-character separator: splitting the empty string
yields one empty piece). -/
def splitOnChar (sep : Char) : List Char → List (List Char)
  | [] => [[]]
  | c :: rest =>
    if c = sep then [] :: splitOnChar sep rest
    else
      match splitOnChar sep rest with
      | [] => [[c]]
      | g :: gs => (c :: g) :: gs

/-- Python `s.split(sep)` for a one-character separator. -/
def pySplit (sep : Char) (s : String) : List String :=
  (splitOnChar sep s.data).map (fun cs => ⟨cs⟩)

/-- Python `s.startswith(c)` for a one-character needle. -/
def strStartsWith (s : String) (c : Char) : Bool :=
  match s.data with
  | [] => false
  | c0 :: _ => c0 = c

/-- `row["item"]["value"].split("/")[-1]`. -/
def qidOfItemValue (itemValue : String) : String :=
  ((pySplit '/' itemValue).reverse).headD ""

/-- `_load_wikidata_items`, from the point where the SPARQL response has
been received: the input is the `results.bindings` list as pairs of the
`item` value URI and the `igdb_id` value string.  Returns the mapping plus
the list of warnings the function writes (the source emits none).  A QID
not starting with `Q` trips the `assert`; a non-numeric `igdb_id` value
makes `int()` raise. -/
def loadWikidataItems (bindings : List (String × String)) :
    Except PyErr (List (Int × String) × List String) :=
  bindings.foldlM (fun acc b => do
    let qid := qidOfItemValue b.1
    if strStartsWith qid 'Q' then
      match pyParseInt b.2 with
      | some igdbId => pure (pyDictInsert acc.1 igdbId qid, acc.2)
      | none => Except.error PyErr.valueError
    else Except.error PyErr.assertionError)
    (([] : List (Int × String)), ([] : List String))

/-! ### `_load_gametrack_games` (record extractor) -/

/-- One raw `ZGAME` row.  SQLite nullable columns are `Option`; the two
asserted-on columns (`ZTITLE`, `ZGAMEID`) are typed directly.  The three
archiver blobs are carried as their `plistlib.loads` outcome. -/
structure RawRow where
  zid : Option (List Nat)
  zgameid : Int
  ztitle : String
  zsummary : Option String
  zdeveloper : Option String
  zpublisher : Option String
  zposterurl : Option String
  zbannerurl : Option String
  zreleasedate : Option ℚ
  zreleaseyear : Option Int
  zplatforms : BlobData
  zownedplatform : Option String
  zadditionalplatforms : BlobData
  zgamestate : Option Int
  zcompletionstate : Option Int
  zcompletion : Option Int
  zpriority : Option Int
  zformat : Option Int
  zuserrating : Option Int
  zcriticrating : Option Int
  zhoursplayed : Option ℚ
  zadditionalplaytime : Option ℚ
  zstartdate : Option ℚ
  zfinishdate : Option ℚ
  zaddeddate : Option ℚ
  znotes : Option String
  zreview : Option String
  zreviewspoilers : Option Int
  ztimetobeatstory : Option ℚ
  ztimetobeatextras : Option ℚ
  ztimetobeatcomplete : Option ℚ
  ztimetobeattype : Option Int
  zsteamdeckstatus : Option Int
  zgenres : BlobData

/-- Python truthiness of a nullable numeric column (`None` and `0` are
falsy). -/
def truthyNum (o : Option ℚ) : Bool :=
  match o with
  | none => false
  | some q => decide (q ≠ 0)

/-- The status lookup `GAME_STATUS_ENUM[row["ZGAMESTATE"]]`: a `None` or
unmapped code has no entry in the table (`KeyError`). -/
def rowStatus (row : RawRow) : Option String :=
  match row.zgamestate with
  | some code => dlookup code GAME_STATUS_ENUM
  | none => none

/-- The per-row body of the extraction loop in `_load_gametrack_games`.
The only statement that can raise is the status table lookup
`GAME_STATUS_ENUM[row["ZGAMESTATE"]]` (`KeyError`). -/
def processRow (wikidataItems : List (Int × String)) (row : RawRow) :
    Except PyErr Game :=
  let uuidStr := blobToUuid row.zid
  let igdbId := row.zgameid
  let wikidataQid := (dlookup igdbId wikidataItems).getD ""
  let releaseYear0 : Int := row.zreleaseyear.getD 0
  let rd :=
    if truthyNum row.zreleasedate then
      let d := fromCoredataTimestamp (row.zreleasedate.getD 0)
      (formatTimestamp d, if releaseYear0 = 0 then d.year else releaseYear0)
    else ("", releaseYear0)
  match rowStatus row with
  | none => Except.error PyErr.keyError
  | some status =>
    Except.ok
      { uuid := uuidStr
        igdb_id := igdbId
        wikidata_qid := wikidataQid
        title := row.ztitle
        summary := row.zsummary.getD ""
        developer := row.zdeveloper.getD ""
        publisher := row.zpublisher.getD ""
        poster_url := row.zposterurl.getD ""
        banner_url := row.zbannerurl.getD ""
        release_date := rd.1
        release_year := rd.2
        platforms := String.intercalate "|" (decodeNskeyedArray row.zplatforms)
        owned_platform := row.zownedplatform.getD ""
        additional_platforms :=
          String.intercalate "|" (decodeNskeyedArray row.zadditionalplatforms)
        status := status
        game_state := row.zgamestate.getD 0
        completion_state := row.zcompletionstate.getD 0
        completion := row.zcompletion.getD 0
        priority := row.zpriority.getD 0
        format := row.zformat.getD 0
        user_rating := row.zuserrating.getD 0
        critic_rating := row.zcriticrating.getD 0
        hours_played := row.zhoursplayed.getD 0
        additional_playtime := row.zadditionalplaytime.getD 0
        start_date :=
          if truthyNum row.zstartdate then
            formatTimestamp (fromCoredataTimestamp (row.zstartdate.getD 0))
          else ""
        finish_date :=
          if truthyNum row.zfinishdate then
            formatTimestamp (fromCoredataTimestamp (row.zfinishdate.getD 0))
          else ""
        added_date :=
          if truthyNum row.zaddeddate then
            formatTimestamp (fromCoredataTimestamp (row.zaddeddate.getD 0))
          else ""
        notes := row.znotes.getD ""
        review := row.zreview.getD ""
        review_spoilers :=
          match row.zreviewspoilers with
          | none => "false"
          | some x => if x ≠ 0 then "true" else "false"
        time_to_beat_story := row.ztimetobeatstory.getD 0
        time_to_beat_extras := row.ztimetobeatextras.getD 0
        time_to_beat_complete := row.ztimetobeatcomplete.getD 0
        time_to_beat_type := row.ztimetobeattype.getD 0
        steam_deck_status := row.zsteamdeckstatus.getD 0
        genres := String.intercalate "|" (decodeNskeyedArray row.zgenres) }

/-- `list(_load_gametrack_games())` over the fetched rows: the generator is
drained eagerly by `main`, so an exception on any row discards the whole
record set.  The wikidata mapping is the (already reconciled) result of
`_load_wikidata_items`. -/
def loadGametrackGames (wikidataItems : List (Int × String)) :
    List RawRow → Except PyErr (List Game)
  | [] => Except.ok []
  | row :: rest => do
    let g ← processRow wikidataItems row
    let gs ← loadGametrackGames wikidataItems rest
    pure (g :: gs)

/-! ### `_write_csv` / `_read_csv` (tabular output) -/

/-- A Python runtime value held in a CSV row dictionary. -/
inductive PyValue where
  | int (n : Int)
  | float (q : ℚ)
  | str (s : String)
deriving DecidableEq

/-- Python `str(v)`, parameterized by the rendering of floats (`floatRepr`
is universally quantified in the theorems: the round trip does not depend
on how the shortest-repr float algorithm prints). -/
def pyStr (floatRepr : ℚ → String) : PyValue → String
  | .int n => intStr n
  | .float q => floatRepr q
  | .str s => s

/-- `{field: game.get(field) for field in GAME_FIELDS}` in `GAME_FIELDS`
order. -/
def gameRowValues (g : Game) : List PyValue :=
  [.str g.uuid, .int g.igdb_id, .str g.wikidata_qid, .str g.title,
   .str g.summary, .str g.developer, .str g.publisher, .str g.poster_url,
   .str g.banner_url, .str g.release_date, .int g.release_year,
   .str g.platforms, .str g.owned_platform, .str g.additional_platforms,
   .str g.status, .int g.game_state, .int g.completion_state,
   .int g.completion, .int g.priority, .int g.format, .int g.user_rating,
   .int g.critic_rating, .float g.hours_played, .float g.additional_playtime,
   .str g.start_date, .str g.finish_date, .str g.added_date, .str g.notes,
   .str g.review, .str g.review_spoilers, .float g.time_to_beat_story,
   .float g.time_to_beat_extras, .float g.time_to_beat_complete,
   .int g.time_to_beat_type, .int g.steam_deck_status, .str g.genres]

/-- One written data row: the cell texts in field order (the `csv` module
serializes each cell with `str` and quotes losslessly; the file is modelled
at the cell level, below the lossless quoting layer). -/
def writeCsvRow (floatRepr : ℚ → String) (g : Game) : List String :=
  (gameRowValues g).map (pyStr floatRepr)

/-- `_write_csv`: header row then one row per record; also returns the
written row count. -/
def writeCsv (floatRepr : ℚ → String) (games : List Game) :
    List (List String) × Nat :=
  (GAME_FIELDS :: games.map (writeCsvRow floatRepr), games.length)

/-- The record as `_read_csv` actually rebuilds it: every field is the cell
text, except the two explicitly converted columns. -/
structure ReadGame where
  uuid : PyValue
  igdb_id : PyValue
  wikidata_qid : PyValue
  title : PyValue
  summary : PyValue
  developer : PyValue
  publisher : PyValue
  poster_url : PyValue
  banner_url : PyValue
  release_date : PyValue
  release_year : PyValue
  platforms : PyValue
  owned_platform : PyValue
  additional_platforms : PyValue
  status : PyValue
  game_state : PyValue
  completion_state : PyValue
  completion : PyValue
  priority : PyValue
  format : PyValue
  user_rating : PyValue
  critic_rating : PyValue
  hours_played : PyValue
  additional_playtime : PyValue
  start_date : PyValue
  finish_date : PyValue
  added_date : PyValue
  notes : PyValue
  review : PyValue
  review_spoilers : PyValue
  time_to_beat_story : PyValue
  time_to_beat_extras : PyValue
  time_to_beat_complete : PyValue
  time_to_beat_type : PyValue
  steam_deck_status : PyValue
  genres : PyValue
deriving DecidableEq

/-- The conditional int conversion `_read_csv` applies to the `igdb_id`
and `user_rating` cells: a truthy (nonempty) cell is replaced by
`int(cell)` (`ValueError` on a non-numeric cell), a falsy cell is left as
the string. -/
def convIntCell (cell : String) : Except PyErr PyValue :=
  if cell ≠ "" then
    match pyParseInt cell with
    | some n => pure (PyValue.int n)
    | none => Except.error PyErr.valueError
  else pure (PyValue.str cell)

/-- One `csv.DictReader` row rebuilt by the `_read_csv` loop body.  The
reader pairs the file's header with the cells; `row[...]` on a missing
column raises `KeyError` (a missing column would in truth only surface on
field access downstream, but every file this program reads carries the
full header). -/
def readCsvRow (hdr : List String) (cells : List String) :
    Except PyErr ReadGame := do
  let row := hdr.zip cells
  let get : String → Except PyErr String := fun f =>
    match dlookup f row with
    | some c => Except.ok c
    | none => Except.error PyErr.keyError
  let igdbCell ← get "igdb_id"
  let igdbVal ← convIntCell igdbCell
  let releaseYearVal ←
    if "release_year" ∈ hdr then do
      let c ← get "release_year"
      pure (PyValue.str c)
    else do
      let rdate ← get "release_date"
      if rdate ≠ "" then
        match pyParseInt ((pySplit '-' rdate).headD "") with
        | some n => pure (PyValue.int n)
        | none => Except.error PyErr.valueError
      else pure (PyValue.int 0)
  let urCell ← get "user_rating"
  let urVal ← convIntCell urCell
  let uuidCell ← get "uuid"
  let wqidCell ← get "wikidata_qid"
  let titleCell ← get "title"
  let summaryCell ← get "summary"
  let devCell ← get "developer"
  let pubCell ← get "publisher"
  let posterCell ← get "poster_url"
  let bannerCell ← get "banner_url"
  let rdateCell ← get "release_date"
  let platformsCell ← get "platforms"
  let ownedCell ← get "owned_platform"
  let addlCell ← get "additional_platforms"
  let statusCell ← get "status"
  let gstateCell ← get "game_state"
  let cstateCell ← get "completion_state"
  let complCell ← get "completion"
  let prioCell ← get "priority"
  let formatCell ← get "format"
  let criticCell ← get "critic_rating"
  let hoursCell ← get "hours_played"
  let addlPlayCell ← get "additional_playtime"
  let startCell ← get "start_date"
  let finishCell ← get "finish_date"
  let addedCell ← get "added_date"
  let notesCell ← get "notes"
  let reviewCell ← get "review"
  let spoilCell ← get "review_spoilers"
  let ttbsCell ← get "time_to_beat_story"
  let ttbeCell ← get "time_to_beat_extras"
  let ttbcCell ← get "time_to_beat_complete"
  let ttbtCell ← get "time_to_beat_type"
  let sdeckCell ← get "steam_deck_status"
  let genresCell ← get "genres"
  pure
    { uuid := .str uuidCell
      igdb_id := igdbVal
      wikidata_qid := .str wqidCell
      title := .str titleCell
      summary := .str summaryCell
      developer := .str devCell
      publisher := .str pubCell
      poster_url := .str posterCell
      banner_url := .str bannerCell
      release_date := .str rdateCell
      release_year := releaseYearVal
      platforms := .str platformsCell
      owned_platform := .str ownedCell
      additional_platforms := .str addlCell
      status := .str statusCell
      game_state := .str gstateCell
      completion_state := .str cstateCell
      completion := .str complCell
      priority := .str prioCell
      format := .str formatCell
      user_rating := urVal
      critic_rating := .str criticCell
      hours_played := .str hoursCell
      additional_playtime := .str addlPlayCell
      start_date := .str startCell
      finish_date := .str finishCell
      added_date := .str addedCell
      notes := .str notesCell
      review := .str reviewCell
      review_spoilers := .str spoilCell
      time_to_beat_story := .str ttbsCell
      time_to_beat_extras := .str ttbeCell
      time_to_beat_complete := .str ttbcCell
      time_to_beat_type := .str ttbtCell
      steam_deck_status := .str sdeckCell
      genres := .str genresCell }

/-- Read the data rows one by one against the file's header. -/
def readRows (hdr : List String) : List (List String) → Except PyErr (List ReadGame)
  | [] => Except.ok []
  | cells :: rest => do
    let g ← readCsvRow hdr cells
    let gs ← readRows hdr rest
    pure (g :: gs)

/-- `list(_read_csv(...))` on a cell-level file: first row is the header
(an empty file yields no records), every later row one record. -/
def readCsv (rows : List (List String)) : Except PyErr (List ReadGame) :=
  match rows with
  | [] => Except.ok []
  | hdr :: dataRows => readRows hdr dataRows

/-- What one record looks like after a write/read round trip: every field
collapses to its cell text except `igdb_id` and `user_rating`, which
`_read_csv` converts back to integers. -/
def readGameOfGame (floatRepr : ℚ → String) (g : Game) : ReadGame :=
  { uuid := .str g.uuid
    igdb_id := .int g.igdb_id
    wikidata_qid := .str g.wikidata_qid
    title := .str g.title
    summary := .str g.summary
    developer := .str g.developer
    publisher := .str g.publisher
    poster_url := .str g.poster_url
    banner_url := .str g.banner_url
    release_date := .str g.release_date
    release_year := .str (intStr g.release_year)
    platforms := .str g.platforms
    owned_platform := .str g.owned_platform
    additional_platforms := .str g.additional_platforms
    status := .str g.status
    game_state := .str (intStr g.game_state)
    completion_state := .str (intStr g.completion_state)
    completion := .str (intStr g.completion)
    priority := .str (intStr g.priority)
    format := .str (intStr g.format)
    user_rating := .int g.user_rating
    critic_rating := .str (intStr g.critic_rating)
    hours_played := .str (floatRepr g.hours_played)
    additional_playtime := .str (floatRepr g.additional_playtime)
    start_date := .str g.start_date
    finish_date := .str g.finish_date
    added_date := .str g.added_date
    notes := .str g.notes
    review := .str g.review
    review_spoilers := .str g.review_spoilers
    time_to_beat_story := .str (floatRepr g.time_to_beat_story)
    time_to_beat_extras := .str (floatRepr g.time_to_beat_extras)
    time_to_beat_complete := .str (floatRepr g.time_to_beat_complete)
    time_to_beat_type := .str (intStr g.time_to_beat_type)
    steam_deck_status := .str (intStr g.steam_deck_status)
    genres := .str g.genres }

/-! ### `_write_prom_metrics` (metrics aggregator) -/

/-- `(year, platform, status)` count key. -/
abbrev CountKey := Int × String × String

/-- `(rating, year)` key. -/
abbrev RatingKey := Int × Int

/-- `d[k] += 1`: `KeyError` (modelled as `none`) when the key is absent. -/
def dincr {K : Type} [DecidableEq K] (d : List (K × Int)) (k : K) :
    Option (List (K × Int)) :=
  (dlookup k d).map (fun v => pyDictInsert d k (v + 1))

/-- The zero-initialization loops of `_write_prom_metrics`: for every
status, year and platform a zero count, and (inside the platform loop) for
every rating and year a zero rating count. -/
def initMetricDicts (years : List Int) (platforms : List String) :
    List (CountKey × Int) × List (RatingKey × Int) :=
  gameStatusValues.foldl (fun cd s =>
    years.foldl (fun cd y =>
      platforms.foldl (fun cd p =>
        (pyDictInsert cd.1 (y, p, s) 0,
         RATINGS_ENUM.foldl (fun r rt => pyDictInsert r (rt, y) 0) cd.2))
        cd) cd) ([], [])

/-- The per-record pass: increment the `(year, platform, status)` counter,
and the `(rating, year)` counter when the user rating is truthy. -/
def processGame (cd : List (CountKey × Int) × List (RatingKey × Int))
    (g : Game) : Option (List (CountKey × Int) × List (RatingKey × Int)) := do
  let c ← dincr cd.1 (g.release_year, g.owned_platform, g.status)
  if g.user_rating ≠ 0 then do
    let r ← dincr cd.2 (g.user_rating, g.release_year)
    pure (c, r)
  else pure (c, cd.2)

/-- Fold the per-record pass over the record list. -/
def processGames (cd : List (CountKey × Int) × List (RatingKey × Int))
    (gs : List Game) :
    Option (List (CountKey × Int) × List (RatingKey × Int)) :=
  gs.foldlM processGame cd

/-- `f"{value:.1f}"` of an integer-valued counter. -/
def fmtOneDecimal (v : Int) : String := intStr v ++ ".0"

/-- One emitted `gametrack_game_count` series line. -/
def promCountLine (k : CountKey) (v : Int) : String :=
  "gametrack_game_count\x7byear=\"" ++ intStr k.1 ++ "\",platform=\"" ++
    k.2.1 ++ "\",status=\"" ++ k.2.2 ++ "\"\x7d " ++ fmtOneDecimal v ++ "\n"

/-- One emitted `gametrack_game_rating` series line. -/
def promRatingLine (k : RatingKey) (v : Int) : String :=
  "gametrack_game_rating\x7byear=\"" ++ intStr k.2 ++ "\",rating=\"" ++
    intStr k.1 ++ "\"\x7d " ++ fmtOneDecimal v ++ "\n"

/-- The result of `_write_prom_metrics`: the two counter dictionaries (in
emission order), the rendered series lines of each family, and the
returned line count. -/
structure PromOutput where
  counts : List (CountKey × Int)
  ratings : List (RatingKey × Int)
  countLines : List String
  ratingLines : List String
  total : Nat
deriving DecidableEq

/-- `_write_prom_metrics`: sort the observed platform and year multisets,
zero-initialize the dense grid, tally every record (a `KeyError` on an
out-of-scale rating aborts, modelled as `none`), then emit one series per
dictionary entry. -/
def writePromMetrics (gs : List Game) : Option PromOutput :=
  let platforms := (gs.map (fun g => g.owned_platform)).insertionSort (· ≤ ·)
  let years := (gs.map (fun g => g.release_year)).insertionSort (· ≤ ·)
  (processGames (initMetricDicts years platforms) gs).map (fun cr =>
    { counts := cr.1
      ratings := cr.2
      countLines := cr.1.map (fun p => promCountLine p.1 p.2)
      ratingLines := cr.2.map (fun p => promRatingLine p.1 p.2)
      total := cr.1.length + cr.2.length })

/-! ### `_gh_commit_tree` and `_gh_update_branch` (dataset publisher) -/

/-- A `_GitTreeEntry`. -/
structure GitTreeEntry where
  path : String
  mode : String
  type : String
  sha : String
deriving DecidableEq

/-- The remote content-address functions: tree identifiers are a
deterministic digest of tree contents, commit identifiers a digest of
message, tree and parent (git object addressing, supplied by the remote
API). -/
structure GhEnv where
  hashTree : List GitTreeEntry → String
  mkCommitSha : String → String → String → String

/-- The publisher-visible remote state: the branch tip commit and each
commit's tree. -/
structure GhState where
  branchTip : String
  treeOf : String → String

/-- The remote API calls `_gh_commit_tree` can issue, in order. -/
inductive GitCall where
  | readRef
  | createTree
  | createCommit
  | updateRef
deriving DecidableEq

/-- `_gh_commit_tree`: read the branch tip and its tree, upload the new
tree, short-circuit when the tree identifier is unchanged, else create a
commit on the previous tip and advance the branch.  Returns the new state,
the reported commit identifier, and the remote calls performed. -/
def ghCommitTree (env : GhEnv) (st : GhState) (message : String)
    (tree : List GitTreeEntry) : GhState × String × List GitCall :=
  let previousCommitSha := st.branchTip
  let previousTreeSha := st.treeOf previousCommitSha
  let newTreeSha := env.hashTree tree
  if previousTreeSha = newTreeSha then
    (st, previousCommitSha, [.readRef, .createTree])
  else
    let newCommitSha := env.mkCommitSha message newTreeSha previousCommitSha
    ({ branchTip := newCommitSha
       treeOf := fun c =>
         if c = newCommitSha then newTreeSha else st.treeOf c },
     newCommitSha, [.readRef, .createTree, .createCommit, .updateRef])

/-- Errors raised by `urllib` during a remote call: an HTTP error status
(which carries the status code and the request path) or a network-level
failure. -/
inductive GhError where
  | httpError (code : Nat) (path : String)
  | urlError (msg : String)
deriving DecidableEq

/-- The JSON body `_gh_update_branch` posts. -/
structure RefUpdateBody where
  sha : String
  force : Bool
deriving DecidableEq

/-- The request `_gh_update_branch` builds: the refs path and a body with
`force: False`. -/
def ghUpdateBranchRequest (repo name commitSha : String) :
    String × RefUpdateBody :=
  ("/repos/" ++ repo ++ "/git/refs/heads/" ++ name,
   { sha := commitSha, force := false })

/-- Modelled from the spec (remote repository API semantics): a ref update
with `force = false` is fast-forward-only — it fails with HTTP 422 when
the branch tip is not the parent of the posted commit, while
`force = true` would overwrite unconditionally. -/
def apiUpdateRef (st : GhState) (parentOf : String → String) (path : String)
    (body : RefUpdateBody) : Except GhError GhState :=
  if body.force = true ∨ st.branchTip = parentOf body.sha then
    Except.ok { st with branchTip := body.sha }
  else Except.error (GhError.httpError 422 path)

/-- `_gh_update_branch`: post the non-forcing ref update; an HTTP error
from the API propagates as the uncaught `urllib` exception. -/
def ghUpdateBranch (repo name commitSha : String) (st : GhState)
    (parentOf : String → String) : Except GhError GhState :=
  let rq := ghUpdateBranchRequest repo name commitSha
  apiUpdateRef st parentOf rq.1 rq.2


/-! ### Key universes of the dense metric grid, and test fixtures -/

/-- The `(year, platform, status)` keys the initialization loops touch, in
loop order. -/
def countKeysOf (years : List Int) (platforms : List String) : List CountKey :=
  gameStatusValues.flatMap (fun s =>
    years.flatMap (fun y => platforms.map (fun p => (y, p, s))))

/-- The `(rating, year)` keys the initialization loops touch (note the
rating loop sits inside the platform loop), in loop order. -/
def ratingKeysOf (years : List Int) (platforms : List String) : List RatingKey :=
  gameStatusValues.flatMap (fun _ =>
    years.flatMap (fun y =>
      platforms.flatMap (fun _ => RATINGS_ENUM.map (fun rt => (rt, y)))))

/-- Example fixture: a record with the given year, platform, status and
rating; every other field defaulted. -/
def mkGame (year : Int) (platform status : String) (rating : Int) : Game :=
  { uuid := ""
    igdb_id := 10
    wikidata_qid := ""
    title := "g"
    summary := ""
    developer := ""
    publisher := ""
    poster_url := ""
    banner_url := ""
    release_date := ""
    release_year := year
    platforms := ""
    owned_platform := platform
    additional_platforms := ""
    status := status
    game_state := 1
    completion_state := 0
    completion := 0
    priority := 0
    format := 0
    user_rating := rating
    critic_rating := 0
    hours_played := 0
    additional_playtime := 0
    start_date := ""
    finish_date := ""
    added_date := ""
    notes := ""
    review := ""
    review_spoilers := "false"
    time_to_beat_story := 0
    time_to_beat_extras := 0
    time_to_beat_complete := 0
    time_to_beat_type := 0
    steam_deck_status := 0
    genres := "" }

/-- Example fixture: a raw row with the given identifier and status code;
every nullable column `NULL`. -/
def mkRow (gameid : Int) (state : Option Int) : RawRow :=
  { zid := none
    zgameid := gameid
    ztitle := "t"
    zsummary := none
    zdeveloper := none
    zpublisher := none
    zposterurl := none
    zbannerurl := none
    zreleasedate := none
    zreleaseyear := none
    zplatforms := BlobData.noneOrEmpty
    zownedplatform := none
    zadditionalplatforms := BlobData.noneOrEmpty
    zgamestate := state
    zcompletionstate := none
    zcompletion := none
    zpriority := none
    zformat := none
    zuserrating := none
    zcriticrating := none
    zhoursplayed := none
    zadditionalplaytime := none
    zstartdate := none
    zfinishdate := none
    zaddeddate := none
    znotes := none
    zreview := none
    zreviewspoilers := none
    ztimetobeatstory := none
    ztimetobeatextras := none
    ztimetobeatcomplete := none
    ztimetobeattype := none
    zsteamdeckstatus := none
    zgenres := BlobData.noneOrEmpty }

-- THEOREMS-MARKER

theorem digitVal_digitChar {d : Nat} (h : d < 10) :
    digitVal (digitChar d) = d := by
  interval_cases d <;> rfl

theorem isDigit_digitChar {d : Nat} (h : d < 10) :
    (digitChar d).isDigit = true := by
  interval_cases d <;> rfl

theorem natCharsAux_fuel_irrel (n : Nat) :
    ∀ f1 f2, n ≤ f1 → n ≤ f2 → natCharsAux f1 n = natCharsAux f2 n := by
  induction n using Nat.strong_induction_on with
  | _ n ih =>
    intro f1 f2 h1 h2
    match f1, f2 with
    | 0, 0 => rfl
    | 0, f2 + 1 =>
      have : n = 0 := by omega
      subst this
      simp [natCharsAux]
    | f1 + 1, 0 =>
      have : n = 0 := by omega
      subst this
      simp [natCharsAux]
    | f1 + 1, f2 + 1 =>
      simp only [natCharsAux]
      split
      · rfl
      · next h =>
        rw [ih (n / 10) (by omega) f1 f2 (by omega) (by omega)]

theorem natChars_unfold (n : Nat) :
    natChars n = if n < 10 then [digitChar n]
      else natChars (n / 10) ++ [digitChar (n % 10)] := by
  unfold natChars
  match n with
  | 0 => simp [natCharsAux]
  | m + 1 =>
    simp only [natCharsAux]
    split
    · rfl
    · next h =>
      rw [natCharsAux_fuel_irrel ((m + 1) / 10) m ((m + 1) / 10)
        (by omega) (by omega)]

theorem natChars_ne_nil (n : Nat) : natChars n ≠ [] := by
  rw [natChars_unfold]
  split <;> simp

theorem natChars_all_digits (n : Nat) :
    (natChars n).all Char.isDigit = true := by
  induction n using Nat.strong_induction_on with
  | _ n ih =>
    rw [natChars_unfold]
    split
    · next h => simp [isDigit_digitChar h]
    · next h =>
      rw [List.all_append]
      have h1 : n / 10 < n := by omega
      simp [ih _ h1, isDigit_digitChar (Nat.mod_lt n (by omega))]

theorem strVal_natChars (n : Nat) : strVal (natChars n) = n := by
  induction n using Nat.strong_induction_on with
  | _ n ih =>
    rw [natChars_unfold]
    split
    · next h => simp [strVal, digitVal_digitChar h]
    · next h =>
      have h1 : n / 10 < n := by omega
      have h2 := ih _ h1
      simp only [strVal, List.foldl_append] at *
      simp only [List.foldl_cons, List.foldl_nil]
      rw [h2, digitVal_digitChar (Nat.mod_lt n (by omega))]
      omega

theorem parseDigits_natChars (n : Nat) : parseDigits (natChars n) = some n := by
  simp [parseDigits, natChars_ne_nil, natChars_all_digits, strVal_natChars]

theorem natChars_head_isDigit (n : Nat) :
    ∀ c cs, natChars n = c :: cs → c.isDigit = true := by
  intro c cs h
  have := natChars_all_digits n
  rw [h] at this
  simp [List.all_cons] at this
  exact this.1

theorem pyParseInt_natStr (n : Nat) : pyParseInt (natStr n) = some (n : Int) := by
  unfold pyParseInt natStr
  rcases hc : natChars n with _ | ⟨c, cs⟩
  · exact absurd hc (natChars_ne_nil n)
  · have hd := natChars_head_isDigit n c cs hc
    have hc1 : c ≠ '-' := by
      intro h
      rw [h] at hd
      simp [Char.isDigit] at hd
    have hc2 : c ≠ '+' := by
      intro h
      rw [h] at hd
      simp [Char.isDigit] at hd
    have hdata : (String.mk (c :: cs)).data = c :: cs := rfl
    simp only [hdata]
    have hp : parseDigits (c :: cs) = some n := by
      rw [← hc]
      exact parseDigits_natChars n
    split
    · next heq =>
      injection heq with h1 _
      exact absurd h1 hc1
    · next heq =>
      injection heq with h1 _
      exact absurd h1 hc2
    · simp [hp]

theorem pyParseInt_intStr (n : Int) : pyParseInt (intStr n) = some n := by
  unfold intStr
  split
  · next hneg =>
    have hdata : ("-" ++ natStr (-n).toNat).data
        = '-' :: natChars (-n).toNat := by
      rw [String.data_append]
      rfl
    unfold pyParseInt
    rw [hdata]
    simp [parseDigits_natChars, Int.toNat_of_nonneg (by omega : (0 : Int) ≤ -n)]
  · next hpos =>
    rw [pyParseInt_natStr]
    congr 1
    omega

theorem intStr_ne_empty (n : Int) : intStr n ≠ "" := by
  unfold intStr
  split
  · intro h
    have := congrArg String.data h
    rw [String.data_append] at this
    simp at this
  · intro h
    have := congrArg String.data h
    have h2 : natChars n.toNat = [] := this
    exact natChars_ne_nil _ h2

theorem dlookup_isSome {K V : Type} [DecidableEq K] (k : K) (d : List (K × V)) :
    (dlookup k d).isSome = true ↔ k ∈ dkeys d := by
  induction d with
  | nil => simp [dlookup, dkeys]
  | cons p d ih =>
    by_cases h : p.1 = k
    · simp [dlookup, dkeys, h]
    · simp [dlookup, dkeys, h, ih]
      intro he
      exact absurd he.symm h

theorem dlookup_append {K V : Type} [DecidableEq K] (k : K) (d e : List (K × V)) :
    dlookup k (d ++ e) =
      match dlookup k d with
      | some v => some v
      | none => dlookup k e := by
  induction d with
  | nil => simp [dlookup]
  | cons p d ih =>
    by_cases h : p.1 = k <;> simp [dlookup, h, ih]

theorem dlookup_mapUpdate {K V : Type} [DecidableEq K] (d : List (K × V))
    (k k' : K) (v : V) :
    dlookup k' (d.map (fun p => if p.1 = k then (p.1, v) else p)) =
      if k' = k then (dlookup k d).map (fun _ => v) else dlookup k' d := by
  induction d with
  | nil => simp [dlookup]
  | cons p d ih =>
    simp only [List.map_cons]
    by_cases hpk : p.1 = k
    · rw [if_pos hpk]
      by_cases hk : k' = k
      · subst hk
        simp [dlookup, hpk]
      · have h1 : ¬ p.1 = k' := by
          rw [hpk]
          exact fun h => hk h.symm
        simp [dlookup, h1, ih, hk]
    · rw [if_neg hpk]
      by_cases hpk' : p.1 = k'
      · have hk : ¬ k' = k := by
          rw [← hpk']
          exact hpk
        simp [dlookup, hpk', hk]
      · simp [dlookup, hpk, hpk', ih]

theorem dlookup_insert {K V : Type} [DecidableEq K] (d : List (K × V))
    (k k' : K) (v : V) :
    dlookup k' (pyDictInsert d k v) = if k' = k then some v else dlookup k' d := by
  unfold pyDictInsert
  split
  · next hs =>
    rw [dlookup_mapUpdate]
    by_cases hk : k' = k
    · rcases Option.isSome_iff_exists.mp hs with ⟨w, hw⟩
      simp [hk, hw]
    · simp [hk]
  · next hs =>
    rw [dlookup_append]
    by_cases hk : k' = k
    · subst hk
      have : dlookup k' d = none := by
        cases h : dlookup k' d
        · rfl
        · rw [h] at hs
          simp at hs
      simp [this, dlookup]
    · cases h : dlookup k' d
      · simp [dlookup, hk]
        intro he
        exact absurd he.symm hk
      · simp [hk]

theorem dkeys_mapUpdate {K V : Type} [DecidableEq K] (d : List (K × V))
    (k : K) (v : V) :
    dkeys (d.map (fun p => if p.1 = k then (p.1, v) else p)) = dkeys d := by
  unfold dkeys
  rw [List.map_map]
  congr 1
  funext p
  by_cases h : p.1 = k <;> simp [h]

theorem dkeys_insert {K V : Type} [DecidableEq K] (d : List (K × V)) (k : K) (v : V) :
    dkeys (pyDictInsert d k v) =
      if k ∈ dkeys d then dkeys d else dkeys d ++ [k] := by
  unfold pyDictInsert
  split
  · next hs =>
    rw [dkeys_mapUpdate, if_pos ((dlookup_isSome k d).mp hs)]
  · next hs =>
    have : ¬ k ∈ dkeys d := fun h => hs (by rw [dlookup_isSome]; exact h)
    rw [if_neg this]
    simp [dkeys]

theorem dkeys_insert_nodup {K V : Type} [DecidableEq K] (d : List (K × V))
    (k : K) (v : V) (h : (dkeys d).Nodup) : (dkeys (pyDictInsert d k v)).Nodup := by
  rw [dkeys_insert]
  split
  · exact h
  · next hm => simp [List.nodup_append, h, hm]

theorem length_insert {K V : Type} [DecidableEq K] (d : List (K × V)) (k : K) (v : V) :
    (pyDictInsert d k v).length =
      if k ∈ dkeys d then d.length else d.length + 1 := by
  unfold pyDictInsert
  by_cases h : k ∈ dkeys d
  · rw [if_pos ((dlookup_isSome k d).mpr h), if_pos h]
    simp
  · have : ¬ (dlookup k d).isSome = true := fun hs => h ((dlookup_isSome k d).mp hs)
    rw [if_neg this, if_neg h]
    simp

theorem dlookup_of_mem_nodup {K V : Type} [DecidableEq K] {d : List (K × V)}
    {k : K} {v : V} (hn : (dkeys d).Nodup) (hm : (k, v) ∈ d) :
    dlookup k d = some v := by
  induction d with
  | nil => simp at hm
  | cons p d ih =>
    have hn' : p.1 ∉ dkeys d ∧ (dkeys d).Nodup := by
      have hc : dkeys (p :: d) = p.1 :: dkeys d := rfl
      rw [hc, List.nodup_cons] at hn
      exact hn
    rcases List.mem_cons.mp hm with h | h
    · rw [← h]
      simp [dlookup]
    · have hk : p.1 ≠ k := by
        intro he
        exact hn'.1 (by rw [he]; exact List.mem_map.mpr ⟨(k, v), h, rfl⟩)
      simp only [dlookup, if_neg hk]
      exact ih hn'.2 h

theorem dlookup_dinsertAll {K V : Type} [DecidableEq K] (ks : List K) (v0 : V)
    (d : List (K × V)) (k : K) :
    dlookup k (dinsertAll ks v0 d) = if k ∈ ks then some v0 else dlookup k d := by
  induction ks generalizing d with
  | nil => simp [dinsertAll]
  | cons a ks ih =>
    have hstep : dinsertAll (a :: ks) v0 d = dinsertAll ks v0 (pyDictInsert d a v0) := rfl
    rw [hstep, ih]
    by_cases h1 : k ∈ ks
    · simp [h1]
    · rw [dlookup_insert]
      by_cases h2 : k = a
      · simp [h1, h2]
      · simp [h1, h2]

theorem mem_dkeys_dinsertAll {K V : Type} [DecidableEq K] (ks : List K) (v0 : V)
    (d : List (K × V)) (k : K) :
    k ∈ dkeys (dinsertAll ks v0 d) ↔ k ∈ ks ∨ k ∈ dkeys d := by
  rw [← dlookup_isSome, dlookup_dinsertAll]
  by_cases h : k ∈ ks
  · simp [h]
  · simp [h, dlookup_isSome]

theorem dkeys_dinsertAll_nodup {K V : Type} [DecidableEq K] (ks : List K) (v0 : V)
    (d : List (K × V)) (h : (dkeys d).Nodup) :
    (dkeys (dinsertAll ks v0 d)).Nodup := by
  induction ks generalizing d with
  | nil => exact h
  | cons a ks ih => exact ih _ (dkeys_insert_nodup d a v0 h)

theorem length_dkeys {K V : Type} (d : List (K × V)) : (dkeys d).length = d.length := by
  simp [dkeys]

theorem length_dinsertAll_nil {K V : Type} [DecidableEq K] (ks : List K) (v0 : V) :
    (dinsertAll ks v0 ([] : List (K × V))).length = ks.dedup.length := by
  have hn : (dkeys (dinsertAll ks v0 ([] : List (K × V)))).Nodup :=
    dkeys_dinsertAll_nodup ks v0 [] (by simp [dkeys])
  have hm : ∀ k, k ∈ dkeys (dinsertAll ks v0 ([] : List (K × V))) ↔ k ∈ ks := by
    intro k
    rw [mem_dkeys_dinsertAll]
    simp [dkeys]
  have hfin : (dkeys (dinsertAll ks v0 ([] : List (K × V)))).toFinset = ks.toFinset := by
    ext k
    simp [List.mem_toFinset, hm]
  have h1 := List.toFinset_card_of_nodup hn
  rw [hfin, List.card_toFinset] at h1
  rw [← length_dkeys, ← h1]

/-! ## Claim C2: timestamp conversion round-trip -/

/-- C2: for every stored timestamp value `t`, `_from_coredata_timestamp`
returns the UTC instant `t + 978307200` seconds past the 1970 epoch (the
datetime built from exactly that unix-seconds value), and the conversion
round-trips against the inverse offset in both directions:
`decode (encode t) = t` and `encode (decode t) = t`. -/
theorem coredata_timestamp_roundtrip (t : ℚ) :
    fromCoredataUnixSeconds t = t + 978307200 ∧
    fromCoredataTimestamp t = datetimeFromUnix (t + 978307200) ∧
    fromCoredataUnixSeconds (encodeCoredataTimestamp t) = t ∧
    encodeCoredataTimestamp (fromCoredataUnixSeconds t) = t := by
  refine ⟨rfl, rfl, ?_, ?_⟩ <;>
    simp [fromCoredataUnixSeconds, encodeCoredataTimestamp]

/-! ## Claim C1: publish idempotence -/

/-- C1: when the newly built tree identifier equals the tree identifier at
the branch tip, `_gh_commit_tree` performs neither create-commit nor
update-ref and reports the previously read commit identifier; consequently
a second invocation on an unchanged record set reports the same commit
identifier as the first and performs no commit or ref-update call. -/
theorem publish_idempotent (env : GhEnv) (st : GhState) (message : String)
    (tree : List GitTreeEntry) :
    (st.treeOf st.branchTip = env.hashTree tree →
      (ghCommitTree env st message tree).2.1 = st.branchTip ∧
      GitCall.createCommit ∉ (ghCommitTree env st message tree).2.2 ∧
      GitCall.updateRef ∉ (ghCommitTree env st message tree).2.2) ∧
    ((ghCommitTree env (ghCommitTree env st message tree).1 message tree).2.1
        = (ghCommitTree env st message tree).2.1 ∧
      GitCall.createCommit ∉
        (ghCommitTree env (ghCommitTree env st message tree).1 message tree).2.2 ∧
      GitCall.updateRef ∉
        (ghCommitTree env (ghCommitTree env st message tree).1 message tree).2.2) := by
  constructor
  · intro h
    simp [ghCommitTree, h]
  · by_cases h : st.treeOf st.branchTip = env.hashTree tree
    · simp [ghCommitTree, h]
    · simp only [ghCommitTree, if_neg h]
      simp

/-- Witness for C1 at a concrete state whose tip already holds the new
tree identifier. -/
theorem publish_idempotent_witness :
    (GhState.mk "C" (fun _ => "T")).treeOf (GhState.mk "C" (fun _ => "T")).branchTip
      = (GhEnv.mk (fun _ => "T") (fun _ _ _ => "D")).hashTree [] ∧
    (ghCommitTree (GhEnv.mk (fun _ => "T") (fun _ _ _ => "D"))
        (GhState.mk "C" (fun _ => "T")) "Update data" []).2.1 = "C" :=
  ⟨rfl, ((publish_idempotent (GhEnv.mk (fun _ => "T") (fun _ _ _ => "D"))
      (GhState.mk "C" (fun _ => "T")) "Update data" []).1 rfl).1⟩

/-! ## Claim C8: non-forcing branch ref update -/

/-- C8: `_gh_update_branch` posts `force = false`, so when the branch has
moved since read-ref (its tip is no longer the parent of the new commit)
the update fails with an HTTP 422 error on the refs path rather than
overwriting, and that error value is distinct from network errors and from
authorization failures (401/403). -/
theorem ref_update_nonforcing (repo name commitSha : String) (st : GhState)
    (parentOf : String → String)
    (hmoved : st.branchTip ≠ parentOf commitSha) :
    (ghUpdateBranchRequest repo name commitSha).2.force = false ∧
    ghUpdateBranch repo name commitSha st parentOf =
      Except.error (GhError.httpError 422
        ("/repos/" ++ repo ++ "/git/refs/heads/" ++ name)) ∧
    (∀ msg, GhError.httpError 422
        ("/repos/" ++ repo ++ "/git/refs/heads/" ++ name) ≠
      GhError.urlError msg) ∧
    (∀ p, GhError.httpError 422
        ("/repos/" ++ repo ++ "/git/refs/heads/" ++ name) ≠
        GhError.httpError 401 p ∧
      GhError.httpError 422
        ("/repos/" ++ repo ++ "/git/refs/heads/" ++ name) ≠
        GhError.httpError 403 p) := by
  refine ⟨rfl, ?_, by simp, by simp⟩
  simp [ghUpdateBranch, ghUpdateBranchRequest, apiUpdateRef, hmoved]

/-- Witness for C8: a branch that moved to `"A"` while the new commit's
parent is `"B"`. -/
theorem ref_update_nonforcing_witness :
    (GhState.mk "A" (fun _ => "T")).branchTip ≠ (fun _ => "B") "C" ∧
    ghUpdateBranch "o/r" "data" "C" (GhState.mk "A" (fun _ => "T"))
        (fun _ => "B") =
      Except.error (GhError.httpError 422 "/repos/o/r/git/refs/heads/data") :=
  ⟨by decide,
    (ref_update_nonforcing "o/r" "data" "C" (GhState.mk "A" (fun _ => "T"))
      (fun _ => "B") (by decide)).2.1⟩

/-! ## Claim C7: reconciler duplicate handling -/

/-- C7 counterexample: on the duplicate result set `[(Q1, 100), (Q2, 100)]`
the reconciler does succeed with the last-seen mapping, but it emits no
warning at all, contradicting the claim that a data-quality warning is
emitted. -/
theorem reconciler_duplicate_counterexample :
    ¬ (∃ m w, loadWikidataItems
        [("http://www.wikidata.org/entity/Q1", "100"),
         ("http://www.wikidata.org/entity/Q2", "100")] =
          Except.ok (m, w) ∧ w ≠ []) := by
  rintro ⟨m, w, h, hw⟩
  have he : loadWikidataItems
      [("http://www.wikidata.org/entity/Q1", "100"),
       ("http://www.wikidata.org/entity/Q2", "100")] =
      Except.ok ([((100 : Int), "Q2")], ([] : List String)) := by rfl
  rw [he] at h
  injection h with h1
  exact hw (congrArg Prod.snd h1).symm

/-- C7 as amended: on the duplicate result set the reconciler does not
fail, the returned mapping holds the last-seen binding `100 → Q2`, and no
warning is emitted (the source prints nothing). -/
theorem reconciler_duplicate_amended :
    loadWikidataItems
      [("http://www.wikidata.org/entity/Q1", "100"),
       ("http://www.wikidata.org/entity/Q2", "100")] =
      Except.ok ([((100 : Int), "Q2")], ([] : List String)) := by
  rfl

/-! ## Claim C3: unmapped status codes abort the extraction -/

theorem dlookup_mem_values {K V : Type} [DecidableEq K] {d : List (K × V)}
    {k : K} {v : V} (h : dlookup k d = some v) : v ∈ d.map Prod.snd := by
  induction d with
  | nil => simp [dlookup] at h
  | cons p d ih =>
    by_cases hp : p.1 = k
    · simp only [dlookup, if_pos hp] at h
      injection h with h
      simp [← h]
    · simp only [dlookup, if_neg hp] at h
      simp [ih h]

theorem processRow_error {w : List (Int × String)} {row : RawRow}
    (h : rowStatus row = none) :
    processRow w row = Except.error PyErr.keyError := by
  simp [processRow, h]

theorem processRow_ok_status {w : List (Int × String)} {row : RawRow} {g : Game}
    (h : processRow w row = Except.ok g) : rowStatus row = some g.status := by
  rcases hs : rowStatus row with _ | s
  · rw [processRow_error hs] at h
    exact absurd h (by simp)
  · simp only [processRow, hs] at h
    injection h with h2
    subst h2
    rfl

theorem rowStatus_mem_values {row : RawRow} {s : String}
    (h : rowStatus row = some s) : s ∈ gameStatusValues := by
  unfold rowStatus at h
  rcases hz : row.zgamestate with _ | c
  · rw [hz] at h
    exact absurd h (by simp)
  · rw [hz] at h
    exact dlookup_mem_values h

@[simp]
theorem except_isOk_ok {ε α : Type} (a : α) :
    (Except.ok a : Except ε α).isOk = true := rfl

@[simp]
theorem except_isOk_error {ε α : Type} (e : ε) :
    (Except.error e : Except ε α).isOk = false := rfl

@[simp]
theorem except_bind_ok {ε α β : Type} (a : α) (f : α → Except ε β) :
    (Except.ok a >>= f) = f a := rfl

@[simp]
theorem except_bind_error {ε α β : Type} (e : ε) (f : α → Except ε β) :
    ((Except.error e : Except ε α) >>= f) = Except.error e := rfl

@[simp]
theorem except_map_ok {ε α β : Type} (f : α → β) (a : α) :
    (f <$> (Except.ok a : Except ε α)) = Except.ok (f a) := rfl

@[simp]
theorem except_map_error {ε α β : Type} (f : α → β) (e : ε) :
    (f <$> (Except.error e : Except ε α)) = Except.error e := rfl

theorem loadGametrackGames_cons (w : List (Int × String)) (r : RawRow)
    (rs : List RawRow) :
    loadGametrackGames w (r :: rs) =
      (processRow w r) >>= fun g =>
        (loadGametrackGames w rs) >>= fun gs => Except.ok (g :: gs) := by
  rcases hr : processRow w r with e | g <;>
    rcases hrs : loadGametrackGames w rs with e2 | l2 <;>
      simp [loadGametrackGames, hr, hrs]

/-- C3: a row whose status code has no entry in the six-entry table makes
the whole extraction fail (no record list is produced at all), and in any
successfully extracted record list every record's status is one of the six
fixed literals. -/
theorem status_gap_aborts (w : List (Int × String)) (rows : List RawRow) :
    ((∃ row ∈ rows, ∃ c, row.zgamestate = some c ∧
        dlookup c GAME_STATUS_ENUM = none) →
      (loadGametrackGames w rows).isOk = false) ∧
    (∀ l, loadGametrackGames w rows = Except.ok l →
      ∀ g ∈ l, g.status ∈ gameStatusValues) := by
  constructor
  · intro ⟨row, hmem, c, hc, hl⟩
    induction rows with
    | nil => simp at hmem
    | cons r rs ih =>
      rw [loadGametrackGames_cons]
      rcases hr : processRow w r with e | g
      · simp
      · rcases List.mem_cons.mp hmem with h | h
        · exfalso
          rw [h] at hc
          have hnone : rowStatus r = none := by
            unfold rowStatus
            rw [hc]
            exact hl
          rw [processRow_error hnone] at hr
          exact absurd hr (by simp)
        · have hfalse := ih h
          rcases hrs : loadGametrackGames w rs with e2 | l2
          · simp
          · rw [hrs] at hfalse
            exact absurd hfalse (by simp)
  · induction rows with
    | nil =>
      intro l h
      have h2 : Except.ok ([] : List Game) = Except.ok l := h
      injection h2 with h2
      rw [← h2]
      simp
    | cons r rs ih =>
      intro l h g hg
      rw [loadGametrackGames_cons] at h
      rcases hr : processRow w r with e | g0 <;> rw [hr] at h
      · exact absurd h (by simp)
      · rcases hrs : loadGametrackGames w rs with e2 | l2 <;> rw [hrs] at h
        · exact absurd h (by simp)
        · simp only [except_bind_ok] at h
          injection h with h2
          rw [← h2] at hg
          rcases List.mem_cons.mp hg with h3 | h3
          · rw [h3]
            exact rowStatus_mem_values (processRow_ok_status hr)
          · exact ih l2 hrs g h3

/-- Witness for C3: three raw rows with identifiers 10/20/30, the last
carrying the unmapped code 99. -/
theorem status_gap_aborts_witness :
    (∃ row ∈ [mkRow 10 (some 1), mkRow 20 (some 2), mkRow 30 (some 99)],
      ∃ c, row.zgamestate = some c ∧ dlookup c GAME_STATUS_ENUM = none) ∧
    (loadGametrackGames []
      [mkRow 10 (some 1), mkRow 20 (some 2), mkRow 30 (some 99)]).isOk
        = false :=
  ⟨⟨mkRow 30 (some 99),
      List.Mem.tail _ (List.Mem.tail _ (List.Mem.head _)), 99, rfl, rfl⟩,
    (status_gap_aborts [] _).1
      ⟨mkRow 30 (some 99),
        List.Mem.tail _ (List.Mem.tail _ (List.Mem.head _)), 99, rfl, rfl⟩⟩

/-! ## Claim C4: the object-graph array decoder is total and soft-failing -/

@[simp]
theorem except_pure {ε α : Type} (a : α) :
    (pure a : Except ε α) = Except.ok a := rfl

theorem except_bind_ok_iff {ε α β : Type} {x : Except ε α}
    {f : α → Except ε β} {b : β} :
    (x >>= f) = Except.ok b ↔ ∃ a, x = Except.ok a ∧ f a = Except.ok b := by
  cases x <;> simp

theorem decodeFold_mem {os us : List PVal} {acc l : List String}
    (hf : List.foldlM (fun acc u =>
        match u with
        | PVal.uid idx => do
          let n2 ← pyLen (PVal.arr os)
          if idx < n2 then do
            let obj ← pyIndex (PVal.arr os) idx
            match obj with
            | PVal.str s => pure (acc ++ [s])
            | _ => pure acc
          else pure acc
        | _ => pure acc) acc us = Except.ok l)
    (hacc : ∀ s ∈ acc, ∃ i, os.get? i = some (PVal.str s)) :
    ∀ s ∈ l, ∃ i, os.get? i = some (PVal.str s) := by
  induction us generalizing acc with
  | nil =>
    have h2 : Except.ok acc = Except.ok l := hf
    injection h2 with h2
    rw [← h2]
    exact hacc
  | cons u us ih =>
    rw [List.foldlM_cons] at hf
    cases u with
    | uid idx =>
      simp only [pyLen, except_pure, except_bind_ok] at hf
      by_cases hlt : idx < os.length
      · rw [if_pos hlt] at hf
        rcases hg : os.get? idx with _ | x
        · simp only [pyIndex, hg, except_bind_error] at hf
          exact absurd hf (by simp)
        · simp only [pyIndex, hg, except_pure, except_bind_ok] at hf
          cases x with
          | str s2 =>
            refine ih hf ?_
            intro s hs
            rcases List.mem_append.mp hs with h | h
            · exact hacc s h
            · rw [List.mem_singleton.mp h]
              exact ⟨idx, hg⟩
          | int n => exact ih hf hacc
          | real q => exact ih hf hacc
          | bool b => exact ih hf hacc
          | data bs => exact ih hf hacc
          | uid n => exact ih hf hacc
          | arr xs => exact ih hf hacc
          | dict xs => exact ih hf hacc
      · rw [if_neg hlt] at hf
        exact ih hf hacc
    | str s2 => exact ih hf hacc
    | int n => exact ih hf hacc
    | real q => exact ih hf hacc
    | bool b => exact ih hf hacc
    | data bs => exact ih hf hacc
    | arr xs => exact ih hf hacc
    | dict xs => exact ih hf hacc

/-- C4: the array decoder is a total function into string lists; falsy
input and parse failures give the empty list, an exception anywhere in the
decode body gives the empty list, and every returned string is the content
of an object that a reference resolves to inside the object table. -/
theorem decode_nskeyed_soft (b : BlobData) (s : String) :
    decodeNskeyedArray BlobData.noneOrEmpty = [] ∧
    decodeNskeyedArray BlobData.unparseable = [] ∧
    (∀ v e, decodeNskeyedBody v = Except.error e →
      decodeNskeyedArray (BlobData.parsed v) = []) ∧
    (s ∈ decodeNskeyedArray b →
      ∃ v, b = BlobData.parsed v ∧
        ∃ i, (objectsTableOf v).get? i = some (PVal.str s)) := by
  refine ⟨rfl, rfl, ?_, ?_⟩
  · intro v e he
    simp [decodeNskeyedArray, he]
  · intro hs
    cases b with
    | noneOrEmpty => simp [decodeNskeyedArray] at hs
    | unparseable => simp [decodeNskeyedArray] at hs
    | parsed v =>
      refine ⟨v, rfl, ?_⟩
      rcases hb : decodeNskeyedBody v with e | l
      · rw [show decodeNskeyedArray (BlobData.parsed v) = [] from
            by simp [decodeNskeyedArray, hb]] at hs
        simp at hs
      · rw [show decodeNskeyedArray (BlobData.parsed v) = l from
            by simp [decodeNskeyedArray, hb]] at hs
        cases v with
        | str s0 => simp [decodeNskeyedBody, pyGetDefault] at hb
        | int n => simp [decodeNskeyedBody, pyGetDefault] at hb
        | real q => simp [decodeNskeyedBody, pyGetDefault] at hb
        | bool b0 => simp [decodeNskeyedBody, pyGetDefault] at hb
        | data bs => simp [decodeNskeyedBody, pyGetDefault] at hb
        | uid n => simp [decodeNskeyedBody, pyGetDefault] at hb
        | arr xs => simp [decodeNskeyedBody, pyGetDefault] at hb
        | dict xs =>
          unfold decodeNskeyedBody at hb
          simp only [pyGetDefault, except_pure, except_bind_ok] at hb
          rcases ho : (dlookup "$objects" xs).getD (PVal.arr []) with
            s0 | n0 | q0 | b0 | bs0 | n0 | os | ys <;> rw [ho] at hb
          · -- objects is a string
            simp only [pyLen, except_pure, except_bind_ok] at hb
            by_cases h1 : 1 < s0.length
            · rw [if_pos h1] at hb
              rcases hg : s0.data.get? 1 with _ | c <;>
                simp only [pyIndex, hg, except_pure, except_bind_ok,
                  except_bind_error, pyGetDefault] at hb <;>
                exact absurd hb (by simp)
            · rw [if_neg h1] at hb
              simp only [except_pure, except_bind_ok, pyGetDefault,
                dlookup, Option.getD, pyIter, List.foldlM] at hb
              have h2 : Except.ok ([] : List String) = Except.ok l := hb
              injection h2 with h2
              rw [← h2] at hs
              simp at hs
          · simp [pyLen] at hb
          · simp [pyLen] at hb
          · simp [pyLen] at hb
          · -- objects is data (bytes)
            simp only [pyLen, except_pure, except_bind_ok] at hb
            by_cases h1 : 1 < bs0.length
            · rw [if_pos h1] at hb
              rcases hg : bs0.get? 1 with _ | c <;>
                simp only [pyIndex, hg, except_pure, except_bind_ok,
                  except_bind_error, pyGetDefault] at hb <;>
                exact absurd hb (by simp)
            · rw [if_neg h1] at hb
              simp only [except_pure, except_bind_ok, pyGetDefault,
                dlookup, Option.getD, pyIter, List.foldlM] at hb
              have h2 : Except.ok ([] : List String) = Except.ok l := hb
              injection h2 with h2
              rw [← h2] at hs
              simp at hs
          · simp [pyLen] at hb
          · -- objects is the array case: the real decode path
            rw [show objectsTableOf (PVal.dict xs) = os from
              by simp [objectsTableOf, ho]]
            simp only [pyLen, except_pure, except_bind_ok] at hb
            by_cases h1 : 1 < os.length
            · rw [if_pos h1] at hb
              rcases hg : os.get? 1 with _ | root
              · simp only [pyIndex, hg, except_bind_error] at hb
                exact absurd hb (by simp)
              · simp only [pyIndex, hg, except_pure, except_bind_ok] at hb
                cases root with
                | dict zs =>
                  simp only [pyGetDefault, except_pure, except_bind_ok] at hb
                  rcases hit : pyIter ((dlookup "NS.objects" zs).getD
                      (PVal.arr [])) with e2 | us
                  · rw [hit] at hb
                    exact absurd hb (by simp)
                  · rw [hit] at hb
                    simp only [except_pure, except_bind_ok] at hb
                    exact decodeFold_mem hb (by simp) s hs
                | str s1 => simp [pyGetDefault] at hb
                | int n1 => simp [pyGetDefault] at hb
                | real q1 => simp [pyGetDefault] at hb
                | bool b1 => simp [pyGetDefault] at hb
                | data bs1 => simp [pyGetDefault] at hb
                | uid n1 => simp [pyGetDefault] at hb
                | arr xs1 => simp [pyGetDefault] at hb
            · rw [if_neg h1] at hb
              simp only [except_pure, except_bind_ok, pyGetDefault,
                dlookup, Option.getD, pyIter, List.foldlM] at hb
              have h2 : Except.ok ([] : List String) = Except.ok l := hb
              injection h2 with h2
              rw [← h2] at hs
              simp at hs
          · -- objects is a dict
            simp only [pyLen, except_pure, except_bind_ok] at hb
            by_cases h1 : 1 < ys.length
            · rw [if_pos h1] at hb
              simp only [pyIndex, except_bind_error] at hb
              exact absurd hb (by simp)
            · rw [if_neg h1] at hb
              simp only [except_pure, except_bind_ok, pyGetDefault,
                dlookup, Option.getD, pyIter, List.foldlM] at hb
              have h2 : Except.ok ([] : List String) = Except.ok l := hb
              injection h2 with h2
              rw [← h2] at hs
              simp at hs

/-- Witness for C4: a well-formed two-reference graph whose array holds
one string. -/
theorem decode_nskeyed_soft_witness :
    "PS5" ∈ decodeNskeyedArray (BlobData.parsed (PVal.dict
      [("$objects", PVal.arr [PVal.str "$null",
        PVal.dict [("NS.objects", PVal.arr [PVal.uid 2])],
        PVal.str "PS5"])])) ∧
    (∃ v, BlobData.parsed (PVal.dict
      [("$objects", PVal.arr [PVal.str "$null",
        PVal.dict [("NS.objects", PVal.arr [PVal.uid 2])],
        PVal.str "PS5"])]) = BlobData.parsed v ∧
      ∃ i, (objectsTableOf v).get? i = some (PVal.str "PS5")) :=
  ⟨by decide,
    (decode_nskeyed_soft (BlobData.parsed (PVal.dict
      [("$objects", PVal.arr [PVal.str "$null",
        PVal.dict [("NS.objects", PVal.arr [PVal.uid 2])],
        PVal.str "PS5"])])) "PS5").2.2.2 (by decide)⟩

/-! ## Claim C9: tabular round trip -/

theorem convIntCell_intStr (n : Int) :
    convIntCell (intStr n) = Except.ok (PyValue.int n) := by
  unfold convIntCell
  rw [if_pos (intStr_ne_empty n)]
  rw [pyParseInt_intStr]
  rfl

theorem readCsvRow_roundtrip (fr : ℚ → String) (g : Game) :
    readCsvRow GAME_FIELDS (writeCsvRow fr g) =
      Except.ok (readGameOfGame fr g) := by
  have hshape : readCsvRow GAME_FIELDS (writeCsvRow fr g) =
      convIntCell (intStr g.igdb_id) >>= (fun igdbVal =>
        convIntCell (intStr g.user_rating) >>= (fun urVal =>
          Except.ok
            { uuid := .str g.uuid
              igdb_id := igdbVal
              wikidata_qid := .str g.wikidata_qid
              title := .str g.title
              summary := .str g.summary
              developer := .str g.developer
              publisher := .str g.publisher
              poster_url := .str g.poster_url
              banner_url := .str g.banner_url
              release_date := .str g.release_date
              release_year := .str (intStr g.release_year)
              platforms := .str g.platforms
              owned_platform := .str g.owned_platform
              additional_platforms := .str g.additional_platforms
              status := .str g.status
              game_state := .str (intStr g.game_state)
              completion_state := .str (intStr g.completion_state)
              completion := .str (intStr g.completion)
              priority := .str (intStr g.priority)
              format := .str (intStr g.format)
              user_rating := urVal
              critic_rating := .str (intStr g.critic_rating)
              hours_played := .str (fr g.hours_played)
              additional_playtime := .str (fr g.additional_playtime)
              start_date := .str g.start_date
              finish_date := .str g.finish_date
              added_date := .str g.added_date
              notes := .str g.notes
              review := .str g.review
              review_spoilers := .str g.review_spoilers
              time_to_beat_story := .str (fr g.time_to_beat_story)
              time_to_beat_extras := .str (fr g.time_to_beat_extras)
              time_to_beat_complete := .str (fr g.time_to_beat_complete)
              time_to_beat_type := .str (intStr g.time_to_beat_type)
              steam_deck_status := .str (intStr g.steam_deck_status)
              genres := .str g.genres })) := rfl
  rw [hshape, convIntCell_intStr, convIntCell_intStr]
  rfl

theorem readRows_cons (hdr : List String) (c : List String)
    (rest : List (List String)) :
    readRows hdr (c :: rest) =
      readCsvRow hdr c >>= fun g =>
        readRows hdr rest >>= fun gs => Except.ok (g :: gs) := by
  rcases hr : readCsvRow hdr c with e | g <;>
    rcases hrs : readRows hdr rest with e2 | l2 <;>
      simp [readRows, hr, hrs]

/-- C9 counterexample: round-tripping a record whose `game_state` is the
integer `1` yields a record whose `game_state` is the string `"1"` — the
field's value survives only as text and its type is not preserved, so the
claim that every non-derivable field keeps its value and type fails. -/
theorem csv_roundtrip_counterexample :
    (readCsv (writeCsv (fun _ => "0.0") [mkGame 2020 "PS5" "Wanted" 7]).1).map
        (fun l => l.map (fun r => r.game_state)) =
      Except.ok [PyValue.str "1"] ∧
    PyValue.str "1" ≠ PyValue.int (mkGame 2020 "PS5" "Wanted" 7).game_state := by
  exact ⟨by rfl, by decide⟩

/-- C9 as amended: re-reading the written file reconstructs the records in
order, where `igdb_id` and `user_rating` come back as the original
integers and every other field comes back as its serialized cell text
(`str` of the original value) — equality of value and Python type holds
only for the two converted columns, the rest are preserved as text.  The
statement is universal in the float rendering `fr`, since the text of a
float cell round-trips whatever `str(float)` prints. -/
theorem csv_roundtrip_amended (fr : ℚ → String) (games : List Game) :
    readCsv (writeCsv fr games).1 =
      Except.ok (games.map (readGameOfGame fr)) := by
  show readRows GAME_FIELDS (games.map (writeCsvRow fr)) =
    Except.ok (games.map (readGameOfGame fr))
  induction games with
  | nil => rfl
  | cons g gs ih =>
    rw [List.map_cons, readRows_cons, readCsvRow_roundtrip, except_bind_ok,
      ih, except_bind_ok, List.map_cons]

/-! ## Metrics lemma kit (claims C5, C6, C10) -/

theorem dincr_eq {K : Type} [DecidableEq K] {d d' : List (K × Int)} {k : K}
    (h : dincr d k = some d') :
    ∃ v, dlookup k d = some v ∧ d' = pyDictInsert d k (v + 1) := by
  unfold dincr at h
  rcases hv : dlookup k d with _ | v
  · rw [hv] at h
    exact absurd h (by simp)
  · rw [hv] at h
    injection h with h2
    exact ⟨v, rfl, h2.symm⟩

theorem dincr_lookup {K : Type} [DecidableEq K] {d d' : List (K × Int)} {k : K}
    (h : dincr d k = some d') (k' : K) :
    dlookup k' d' = if k' = k then (dlookup k d).map (fun v => v + 1)
      else dlookup k' d := by
  obtain ⟨v, hv, rfl⟩ := dincr_eq h
  rw [dlookup_insert, hv]
  rfl

theorem dincr_keys {K : Type} [DecidableEq K] {d d' : List (K × Int)} {k : K}
    (h : dincr d k = some d') : dkeys d' = dkeys d := by
  obtain ⟨v, hv, rfl⟩ := dincr_eq h
  rw [dkeys_insert, if_pos]
  rw [← dlookup_isSome, hv]
  rfl

theorem dincr_length {K : Type} [DecidableEq K] {d d' : List (K × Int)} {k : K}
    (h : dincr d k = some d') : d'.length = d.length := by
  have h2 := dincr_keys h
  have h3 := congrArg List.length h2
  rw [length_dkeys, length_dkeys] at h3
  exact h3

theorem dincr_isSome {K : Type} [DecidableEq K] {d : List (K × Int)} {k : K}
    (h : (dlookup k d).isSome = true) : ∃ d', dincr d k = some d' := by
  rcases hv : dlookup k d with _ | v
  · rw [hv] at h
    exact absurd h (by simp)
  · exact ⟨pyDictInsert d k (v + 1), by simp [dincr, hv]⟩

theorem foldl_pair_split {A B X : Type} (g : A → X → A) (h : B → X → B)
    (l : List X) (a : A) (b : B) :
    l.foldl (fun p x => (g p.1 x, h p.2 x)) (a, b) =
      (l.foldl g a, l.foldl h b) := by
  induction l generalizing a b with
  | nil => rfl
  | cons x l ih => simp only [List.foldl_cons, ih]

theorem dinsertAll_append {K V : Type} [DecidableEq K] (ks ks' : List K)
    (v0 : V) (d : List (K × V)) :
    dinsertAll (ks ++ ks') v0 d = dinsertAll ks' v0 (dinsertAll ks v0 d) := by
  unfold dinsertAll
  rw [List.foldl_append]

theorem foldl_dinsertAll_flatMap {K A : Type} [DecidableEq K] (f : A → List K)
    (v0 : Int) (l : List A) (d : List (K × Int)) :
    l.foldl (fun d a => dinsertAll (f a) v0 d) d =
      dinsertAll (l.flatMap f) v0 d := by
  induction l generalizing d with
  | nil => rfl
  | cons a l ih =>
    rw [List.foldl_cons, List.flatMap_cons, dinsertAll_append, ih]

theorem initMetricDicts_eq (years : List Int) (platforms : List String) :
    initMetricDicts years platforms =
      (dinsertAll (countKeysOf years platforms) (0 : Int) [],
       dinsertAll (ratingKeysOf years platforms) (0 : Int) []) := by
  have h1 : ∀ (s : String) (y : Int)
      (cd : List (CountKey × Int) × List (RatingKey × Int)),
      platforms.foldl (fun cd p =>
        (pyDictInsert cd.1 (y, p, s) 0,
         RATINGS_ENUM.foldl (fun r rt => pyDictInsert r (rt, y) 0) cd.2)) cd =
      (dinsertAll (platforms.map (fun p => (y, p, s))) 0 cd.1,
       dinsertAll (platforms.flatMap (fun _ =>
         RATINGS_ENUM.map (fun rt => (rt, y)))) 0 cd.2) := by
    intro s y cd
    obtain ⟨c, r⟩ := cd
    rw [foldl_pair_split (fun c p => pyDictInsert c (y, p, s) 0)
      (fun r _ => RATINGS_ENUM.foldl (fun r rt => pyDictInsert r (rt, y) 0) r)
      platforms c r]
    have hc : platforms.foldl (fun c p => pyDictInsert c (y, p, s) 0) c =
        dinsertAll (platforms.map (fun p => (y, p, s))) 0 c := by
      unfold dinsertAll
      rw [List.foldl_map]
    have hin : (fun (r : List (RatingKey × Int)) (_ : String) =>
        RATINGS_ENUM.foldl (fun r rt => pyDictInsert r (rt, y) 0) r) =
        (fun r _ => dinsertAll (RATINGS_ENUM.map (fun rt => (rt, y))) 0 r) := by
      funext r p
      unfold dinsertAll
      rw [List.foldl_map]
    rw [hc, hin, foldl_dinsertAll_flatMap
      (fun _ => RATINGS_ENUM.map (fun rt => (rt, y))) 0 platforms r]
  have h2 : ∀ (s : String)
      (cd : List (CountKey × Int) × List (RatingKey × Int)),
      years.foldl (fun cd y => platforms.foldl (fun cd p =>
        (pyDictInsert cd.1 (y, p, s) 0,
         RATINGS_ENUM.foldl (fun r rt => pyDictInsert r (rt, y) 0) cd.2)) cd)
        cd =
      (dinsertAll (years.flatMap (fun y =>
         platforms.map (fun p => (y, p, s)))) 0 cd.1,
       dinsertAll (years.flatMap (fun y => platforms.flatMap (fun _ =>
         RATINGS_ENUM.map (fun rt => (rt, y))))) 0 cd.2) := by
    intro s cd
    have hstep : (fun (cd : List (CountKey × Int) × List (RatingKey × Int))
        (y : Int) => platforms.foldl (fun cd p =>
          (pyDictInsert cd.1 (y, p, s) 0,
           RATINGS_ENUM.foldl (fun r rt => pyDictInsert r (rt, y) 0) cd.2))
          cd) =
        (fun cd y =>
          (dinsertAll (platforms.map (fun p => (y, p, s))) 0 cd.1,
           dinsertAll (platforms.flatMap (fun _ =>
             RATINGS_ENUM.map (fun rt => (rt, y)))) 0 cd.2)) := by
      funext cd y
      exact h1 s y cd
    rw [hstep]
    obtain ⟨c, r⟩ := cd
    rw [foldl_pair_split
      (fun c y => dinsertAll (platforms.map (fun p => (y, p, s))) 0 c)
      (fun r y => dinsertAll (platforms.flatMap (fun _ =>
        RATINGS_ENUM.map (fun rt => (rt, y)))) 0 r) years c r]
    rw [foldl_dinsertAll_flatMap (fun y =>
      platforms.map (fun p => (y, p, s))) 0 years c]
    rw [foldl_dinsertAll_flatMap (fun y => platforms.flatMap (fun _ =>
      RATINGS_ENUM.map (fun rt => (rt, y)))) 0 years r]
  unfold initMetricDicts
  have hstep2 : (fun (cd : List (CountKey × Int) × List (RatingKey × Int))
      (s : String) => years.foldl (fun cd y => platforms.foldl (fun cd p =>
        (pyDictInsert cd.1 (y, p, s) 0,
         RATINGS_ENUM.foldl (fun r rt => pyDictInsert r (rt, y) 0) cd.2)) cd)
        cd) =
      (fun cd s =>
        (dinsertAll (years.flatMap (fun y =>
           platforms.map (fun p => (y, p, s)))) 0 cd.1,
         dinsertAll (years.flatMap (fun y => platforms.flatMap (fun _ =>
           RATINGS_ENUM.map (fun rt => (rt, y))))) 0 cd.2)) := by
    funext cd s
    exact h2 s cd
  rw [hstep2]
  rw [foldl_pair_split
    (fun c s => dinsertAll (years.flatMap (fun y =>
      platforms.map (fun p => (y, p, s)))) 0 c)
    (fun r s => dinsertAll (years.flatMap (fun y => platforms.flatMap (fun _ =>
      RATINGS_ENUM.map (fun rt => (rt, y))))) 0 r) gameStatusValues [] []]
  rw [foldl_dinsertAll_flatMap (fun s => years.flatMap (fun y =>
    platforms.map (fun p => (y, p, s)))) 0 gameStatusValues []]
  rw [foldl_dinsertAll_flatMap (fun _ => years.flatMap (fun y =>
    platforms.flatMap (fun _ => RATINGS_ENUM.map (fun rt => (rt, y))))) 0
    gameStatusValues []]
  rfl

@[simp]
theorem obind_some {α β : Type} (a : α) (f : α → Option β) :
    (some a >>= f) = f a := rfl

@[simp]
theorem obind_none {α β : Type} (f : α → Option β) :
    ((none : Option α) >>= f) = none := rfl

theorem mem_countKeysOf (years : List Int) (platforms : List String)
    (k : CountKey) :
    k ∈ countKeysOf years platforms ↔
      k.1 ∈ years ∧ k.2.1 ∈ platforms ∧ k.2.2 ∈ gameStatusValues := by
  obtain ⟨y, p, s⟩ := k
  simp only [countKeysOf, List.mem_flatMap, List.mem_map]
  constructor
  · rintro ⟨s', hs', y', hy', p', hp', he⟩
    injection he with h1 he2
    injection he2 with h2 h3
    subst h1
    subst h2
    subst h3
    exact ⟨hy', hp', hs'⟩
  · rintro ⟨hy, hp, hs⟩
    exact ⟨s, hs, y, hy, p, hp, rfl⟩

theorem mem_ratingKeysOf (years : List Int) (platforms : List String)
    (k : RatingKey) :
    k ∈ ratingKeysOf years platforms ↔
      k.1 ∈ RATINGS_ENUM ∧ k.2 ∈ years ∧ platforms ≠ [] := by
  obtain ⟨rt, y⟩ := k
  simp only [ratingKeysOf, List.mem_flatMap, List.mem_map]
  constructor
  · rintro ⟨s', _, y', hy', p', hp', rt', hrt', he⟩
    injection he with h1 h2
    subst h1
    subst h2
    exact ⟨hrt', hy', fun hnil => by rw [hnil] at hp'; simp at hp'⟩
  · rintro ⟨hrt, hy, hp⟩
    rcases platforms with _ | ⟨p0, ps⟩
    · exact absurd rfl hp
    · exact ⟨"In Progress", by simp [gameStatusValues, GAME_STATUS_ENUM],
        y, hy, p0, List.Mem.head _, rt, hrt, rfl⟩

theorem dedup_length_countKeysOf (years : List Int) (platforms : List String) :
    (countKeysOf years platforms).dedup.length =
      years.dedup.length * platforms.dedup.length * 6 := by
  have h1 : (countKeysOf years platforms).toFinset =
      years.toFinset ×ˢ platforms.toFinset ×ˢ gameStatusValues.toFinset := by
    ext k
    rw [List.mem_toFinset, mem_countKeysOf]
    simp [Finset.mem_product, List.mem_toFinset]
  have h2 := List.card_toFinset (countKeysOf years platforms)
  rw [h1, Finset.card_product, Finset.card_product] at h2
  rw [List.card_toFinset, List.card_toFinset, List.card_toFinset] at h2
  have h3 : gameStatusValues.dedup.length = 6 := by decide
  rw [h3] at h2
  rw [← h2]
  ring

theorem dedup_length_ratingKeysOf (years : List Int) (platforms : List String)
    (hp : platforms ≠ []) :
    (ratingKeysOf years platforms).dedup.length =
      years.dedup.length * 10 := by
  have h1 : (ratingKeysOf years platforms).toFinset =
      RATINGS_ENUM.toFinset ×ˢ years.toFinset := by
    ext k
    rw [List.mem_toFinset, mem_ratingKeysOf]
    simp [Finset.mem_product, List.mem_toFinset, hp]
  have h2 := List.card_toFinset (ratingKeysOf years platforms)
  rw [h1, Finset.card_product] at h2
  rw [List.card_toFinset, List.card_toFinset] at h2
  have h3 : RATINGS_ENUM.dedup.length = 10 := by decide
  rw [h3] at h2
  rw [← h2]
  ring

theorem processGame_cases {cd cd' : List (CountKey × Int) × List (RatingKey × Int)}
    {g : Game} (h : processGame cd g = some cd') :
    ∃ c', dincr cd.1 (g.release_year, g.owned_platform, g.status) = some c' ∧
      ((g.user_rating ≠ 0 ∧ ∃ r',
          dincr cd.2 (g.user_rating, g.release_year) = some r' ∧
          cd' = (c', r')) ∨
       (g.user_rating = 0 ∧ cd' = (c', cd.2))) := by
  unfold processGame at h
  rcases hc : dincr cd.1 (g.release_year, g.owned_platform, g.status) with _ | c'
  · rw [hc] at h
    exact absurd h (by simp)
  · rw [hc] at h
    simp only [obind_some] at h
    refine ⟨c', rfl, ?_⟩
    by_cases hz : g.user_rating ≠ 0
    · rw [if_pos hz] at h
      rcases hr : dincr cd.2 (g.user_rating, g.release_year) with _ | r'
      · rw [hr] at h
        exact absurd h (by simp)
      · rw [hr] at h
        simp only [obind_some] at h
        injection h with h2
        exact Or.inl ⟨hz, r', rfl, h2.symm⟩
    · rw [if_neg hz] at h
      injection h with h2
      push_neg at hz
      exact Or.inr ⟨hz, h2.symm⟩

theorem processGame_build {cd : List (CountKey × Int) × List (RatingKey × Int)}
    {g : Game} {c' : List (CountKey × Int)}
    (hc : dincr cd.1 (g.release_year, g.owned_platform, g.status) = some c') :
    (g.user_rating = 0 → processGame cd g = some (c', cd.2)) ∧
    (∀ r', g.user_rating ≠ 0 →
      dincr cd.2 (g.user_rating, g.release_year) = some r' →
      processGame cd g = some (c', r')) ∧
    (g.user_rating ≠ 0 →
      dincr cd.2 (g.user_rating, g.release_year) = none →
      processGame cd g = none) := by
  refine ⟨?_, ?_, ?_⟩
  · intro hz
    unfold processGame
    rw [hc]
    simp only [obind_some]
    rw [if_neg (by simp [hz])]
    rfl
  · intro r' hz hr
    unfold processGame
    rw [hc]
    simp only [obind_some]
    rw [if_pos hz, hr]
    rfl
  · intro hz hr
    unfold processGame
    rw [hc]
    simp only [obind_some]
    rw [if_pos hz, hr]
    rfl

theorem processGame_keys {cd cd' : List (CountKey × Int) × List (RatingKey × Int)}
    {g : Game} (h : processGame cd g = some cd') :
    dkeys cd'.1 = dkeys cd.1 ∧ dkeys cd'.2 = dkeys cd.2 := by
  obtain ⟨c', hc', hcase⟩ := processGame_cases h
  rcases hcase with ⟨_, r', hr', rfl⟩ | ⟨_, rfl⟩
  · exact ⟨dincr_keys hc', dincr_keys hr'⟩
  · exact ⟨dincr_keys hc', rfl⟩

theorem processGame_isSome
    {cd cd' : List (CountKey × Int) × List (RatingKey × Int)} {g : Game}
    (h : processGame cd g = some cd') :
    (∀ k, (dlookup k cd'.1).isSome = (dlookup k cd.1).isSome) ∧
    (∀ k, (dlookup k cd'.2).isSome = (dlookup k cd.2).isSome) := by
  obtain ⟨c', hc', hcase⟩ := processGame_cases h
  have h1 : ∀ k, (dlookup k c').isSome = (dlookup k cd.1).isSome := by
    intro k
    rw [dincr_lookup hc' k]
    split
    · next he =>
      subst he
      cases dlookup (g.release_year, g.owned_platform, g.status) cd.1 <;> simp
    · rfl
  rcases hcase with ⟨_, r', hr', rfl⟩ | ⟨_, rfl⟩
  · refine ⟨h1, ?_⟩
    intro k
    rw [dincr_lookup hr' k]
    split
    · next he =>
      subst he
      cases dlookup (g.user_rating, g.release_year) cd.2 <;> simp
    · rfl
  · exact ⟨h1, fun _ => rfl⟩

theorem processGames_cons
    (cd : List (CountKey × Int) × List (RatingKey × Int)) (g : Game)
    (gs : List Game) :
    processGames cd (g :: gs) =
      processGame cd g >>= fun cd1 => processGames cd1 gs := rfl

theorem processGames_keys
    {gs : List Game} {cd cd' : List (CountKey × Int) × List (RatingKey × Int)}
    (h : processGames cd gs = some cd') :
    dkeys cd'.1 = dkeys cd.1 ∧ dkeys cd'.2 = dkeys cd.2 := by
  induction gs generalizing cd with
  | nil =>
    have h2 : some cd = some cd' := h
    injection h2 with h2
    rw [h2]
    exact ⟨rfl, rfl⟩
  | cons g gs ih =>
    rw [processGames_cons] at h
    rcases hg : processGame cd g with _ | cd1
    · rw [hg] at h
      exact absurd h (by simp)
    · rw [hg] at h
      simp only [obind_some] at h
      have h1 := ih h
      have h2 := processGame_keys hg
      exact ⟨h1.1.trans h2.1, h1.2.trans h2.2⟩

theorem processGames_length
    {gs : List Game} {cd cd' : List (CountKey × Int) × List (RatingKey × Int)}
    (h : processGames cd gs = some cd') :
    cd'.1.length = cd.1.length ∧ cd'.2.length = cd.2.length := by
  have h2 := processGames_keys h
  constructor
  · have := congrArg List.length h2.1
    rwa [length_dkeys, length_dkeys] at this
  · have := congrArg List.length h2.2
    rwa [length_dkeys, length_dkeys] at this

theorem processGames_rating_lookup
    {gs : List Game} {cd cd' : List (CountKey × Int) × List (RatingKey × Int)}
    (h : processGames cd gs = some cd') (k : RatingKey) (hk : k.1 ≠ 0) :
    dlookup k cd'.2 = (dlookup k cd.2).map (fun v =>
      v + ((gs.filter (fun g =>
        g.user_rating = k.1 ∧ g.release_year = k.2)).length : Int)) := by
  induction gs generalizing cd with
  | nil =>
    have h2 : some cd = some cd' := h
    injection h2 with h2
    rw [h2]
    cases dlookup k cd'.2 <;> simp
  | cons g gs ih =>
    rw [processGames_cons] at h
    rcases hg : processGame cd g with _ | cd1
    · rw [hg] at h
      exact absurd h (by simp)
    · rw [hg] at h
      simp only [obind_some] at h
      have hstep : dlookup k cd1.2 = (dlookup k cd.2).map (fun v =>
          v + (if g.user_rating = k.1 ∧ g.release_year = k.2
            then (1 : Int) else 0)) := by
        obtain ⟨c', hc', hcase⟩ := processGame_cases hg
        rcases hcase with ⟨hnz, r', hr', rfl⟩ | ⟨hz, rfl⟩
        · rw [show ((c', r') :
              List (CountKey × Int) × List (RatingKey × Int)).2 = r' from rfl]
          rw [dincr_lookup hr' k]
          by_cases hkk : k = (g.user_rating, g.release_year)
          · rw [if_pos hkk]
            have hm : g.user_rating = k.1 ∧ g.release_year = k.2 := by
              rw [hkk]
              exact ⟨rfl, rfl⟩
            rw [if_pos hm, hkk]
          · rw [if_neg hkk]
            have hm : ¬ (g.user_rating = k.1 ∧ g.release_year = k.2) := by
              rintro ⟨h1, h2⟩
              exact hkk (by rw [h1, h2])
            rw [if_neg hm]
            cases dlookup k cd.2 <;> simp
        · have hm : ¬ (g.user_rating = k.1 ∧ g.release_year = k.2) := by
            rintro ⟨h1, _⟩
            exact hk (by rw [← h1, hz])
          rw [if_neg hm]
          cases dlookup k cd.2 <;> simp
      rw [ih h, hstep]
      rw [List.filter_cons]
      cases ho : dlookup k cd.2
      · simp
      · simp only [ho, Option.map_some', Option.some.injEq]
        by_cases hm : (g.user_rating = k.1 ∧ g.release_year = k.2)
        · rw [if_pos hm, if_pos (by simpa using hm)]
          rw [List.length_cons]
          push_cast
          ring
        · rw [if_neg hm, if_neg (by simpa using hm)]
          ring

theorem processGames_none_iff (gs : List Game)
    (cd : List (CountKey × Int) × List (RatingKey × Int))
    (hc : ∀ g ∈ gs, (dlookup (g.release_year, g.owned_platform, g.status)
      cd.1).isSome = true)
    (hr : ∀ g ∈ gs, (dlookup (g.user_rating, g.release_year) cd.2).isSome =
      decide (g.user_rating ∈ RATINGS_ENUM)) :
    processGames cd gs = none ↔
      ∃ g ∈ gs, g.user_rating ≠ 0 ∧ g.user_rating ∉ RATINGS_ENUM := by
  induction gs generalizing cd with
  | nil => simp [processGames, List.foldlM]
  | cons g gs ih =>
    rw [processGames_cons]
    obtain ⟨c', hc'⟩ := dincr_isSome (hc g (List.Mem.head _))
    by_cases hz : g.user_rating ≠ 0
    · by_cases hin : g.user_rating ∈ RATINGS_ENUM
      · have hsome : (dlookup (g.user_rating, g.release_year) cd.2).isSome
            = true := by
          rw [hr g (List.Mem.head _)]
          simp [hin]
        obtain ⟨r', hr'⟩ := dincr_isSome hsome
        have hpg := (processGame_build hc').2.1 r' hz hr'
        rw [hpg]
        simp only [obind_some]
        have hiso := processGame_isSome hpg
        rw [ih (c', r')
          (fun g2 hg2 => by rw [hiso.1 _]; exact hc g2 (List.Mem.tail _ hg2))
          (fun g2 hg2 => by rw [hiso.2 _]; exact hr g2 (List.Mem.tail _ hg2))]
        constructor
        · rintro ⟨g2, hg2, hb⟩
          exact ⟨g2, List.Mem.tail _ hg2, hb⟩
        · rintro ⟨g2, hg2, hb⟩
          rcases List.mem_cons.mp hg2 with he | he
          · exfalso
            rw [he] at hb
            exact hb.2 hin
          · exact ⟨g2, he, hb⟩
      · have hnone2 : (dlookup (g.user_rating, g.release_year) cd.2).isSome
            = false := by
          rw [hr g (List.Mem.head _)]
          simp [hin]
        have hnone : dincr cd.2 (g.user_rating, g.release_year) = none := by
          unfold dincr
          rcases hl : dlookup (g.user_rating, g.release_year) cd.2 with _ | v
          · rfl
          · rw [hl] at hnone2
            simp at hnone2
        have hpg := (processGame_build hc').2.2 hz hnone
        rw [hpg]
        simp only [obind_none]
        constructor
        · intro _
          exact ⟨g, List.Mem.head _, hz, hin⟩
        · intro _
          trivial
    · push_neg at hz
      have hpg := (processGame_build hc').1 hz
      rw [hpg]
      simp only [obind_some]
      have hiso := processGame_isSome hpg
      rw [ih (c', cd.2)
        (fun g2 hg2 => by rw [hiso.1 _]; exact hc g2 (List.Mem.tail _ hg2))
        (fun g2 hg2 => by rw [hiso.2 _]; exact hr g2 (List.Mem.tail _ hg2))]
      constructor
      · rintro ⟨g2, hg2, hb⟩
        exact ⟨g2, List.Mem.tail _ hg2, hb⟩
      · rintro ⟨g2, hg2, hb⟩
        rcases List.mem_cons.mp hg2 with he | he
        · exfalso
          rw [he] at hb
          exact hb.1 hz
        · exact ⟨g2, he, hb⟩

theorem perm_dedup_length {α : Type} [DecidableEq α] {l1 l2 : List α}
    (h : l1.Perm l2) : l1.dedup.length = l2.dedup.length := by
  rw [← List.card_toFinset, ← List.card_toFinset]
  congr 1
  ext a
  simp [List.mem_toFinset, h.mem_iff]

theorem writePromMetrics_eq (gs : List Game) :
    writePromMetrics gs = (processGames (initMetricDicts
      ((gs.map (fun g => g.release_year)).insertionSort (· ≤ ·))
      ((gs.map (fun g => g.owned_platform)).insertionSort (· ≤ ·))) gs).map
      (fun cr =>
        { counts := cr.1
          ratings := cr.2
          countLines := cr.1.map (fun p => promCountLine p.1 p.2)
          ratingLines := cr.2.map (fun p => promRatingLine p.1 p.2)
          total := cr.1.length + cr.2.length }) := rfl

theorem initMetricDicts_fst_length (years : List Int) (platforms : List String) :
    (initMetricDicts years platforms).1.length =
      (countKeysOf years platforms).dedup.length := by
  rw [initMetricDicts_eq]
  exact length_dinsertAll_nil _ _

theorem initMetricDicts_snd_length (years : List Int) (platforms : List String) :
    (initMetricDicts years platforms).2.length =
      (ratingKeysOf years platforms).dedup.length := by
  rw [initMetricDicts_eq]
  exact length_dinsertAll_nil _ _

theorem initMetricDicts_fst_lookup (years : List Int) (platforms : List String)
    (k : CountKey) :
    dlookup k (initMetricDicts years platforms).1 =
      if k ∈ countKeysOf years platforms then some 0 else none := by
  rw [initMetricDicts_eq]
  rw [dlookup_dinsertAll]
  by_cases hk : k ∈ countKeysOf years platforms
  · simp [hk]
  · simp [hk, dlookup]

theorem initMetricDicts_snd_lookup (years : List Int) (platforms : List String)
    (k : RatingKey) :
    dlookup k (initMetricDicts years platforms).2 =
      if k ∈ ratingKeysOf years platforms then some 0 else none := by
  rw [initMetricDicts_eq]
  rw [dlookup_dinsertAll]
  by_cases hk : k ∈ ratingKeysOf years platforms
  · simp [hk]
  · simp [hk, dlookup]

/-- C5: a successful metrics pass emits one `gametrack_game_count` series
per element of the dense (year, platform, status) grid — exactly
`N × M × 6` for `N` distinct observed years and `M` distinct observed
platforms — and exactly `N × 10` `gametrack_game_rating` series. -/
theorem metrics_dense_grid (gs : List Game) (out : PromOutput)
    (h : writePromMetrics gs = some out) :
    out.countLines.length =
      (gs.map (fun g => g.release_year)).dedup.length *
        (gs.map (fun g => g.owned_platform)).dedup.length * 6 ∧
    out.ratingLines.length =
      (gs.map (fun g => g.release_year)).dedup.length * 10 := by
  rw [writePromMetrics_eq] at h
  rcases hpr : processGames (initMetricDicts
      ((gs.map (fun g => g.release_year)).insertionSort (· ≤ ·))
      ((gs.map (fun g => g.owned_platform)).insertionSort (· ≤ ·))) gs
    with _ | cr
  · rw [hpr] at h
    exact absurd h (by simp)
  · rw [hpr] at h
    simp only [Option.map_some'] at h
    injection h with h
    rw [← h]
    simp only [List.length_map]
    have hlen := processGames_length hpr
    constructor
    · rw [hlen.1, initMetricDicts_fst_length, dedup_length_countKeysOf]
      rw [perm_dedup_length (List.perm_insertionSort _ _),
        perm_dedup_length (List.perm_insertionSort _ _)]
    · rcases gs with _ | ⟨g0, gs'⟩
      · rw [hlen.2]
        decide
      · have hpne : ((List.map (fun g => g.owned_platform) (g0 :: gs')).insertionSort
            (· ≤ ·)) ≠ [] := by
          intro hnil
          have hlenp := (List.perm_insertionSort (· ≤ ·)
            (List.map (fun g => g.owned_platform) (g0 :: gs'))).length_eq
          rw [hnil] at hlenp
          simp at hlenp
        rw [hlen.2, initMetricDicts_snd_length,
          dedup_length_ratingKeysOf _ _ hpne,
          perm_dedup_length (List.perm_insertionSort _ _)]

/-- C6: every emitted rating series carries a nonzero rating label (a
rating of 0 means unrated and is never counted), and its value is exactly
the number of records with that rating and that release year — so a record
with rating 7 and year 2020 increments exactly the `(2020, 7)` series by
one and no other. -/
theorem rating_aggregation (gs : List Game) (out : PromOutput)
    (h : writePromMetrics gs = some out) :
    ∀ p ∈ out.ratings, p.1.1 ≠ 0 ∧
      p.2 = ((gs.filter (fun g => g.user_rating = p.1.1 ∧
        g.release_year = p.1.2)).length : Int) := by
  rw [writePromMetrics_eq] at h
  rcases hpr : processGames (initMetricDicts
      ((gs.map (fun g => g.release_year)).insertionSort (· ≤ ·))
      ((gs.map (fun g => g.owned_platform)).insertionSort (· ≤ ·))) gs
    with _ | cr
  · rw [hpr] at h
    exact absurd h (by simp)
  · rw [hpr] at h
    simp only [Option.map_some'] at h
    injection h with h
    rw [← h]
    intro p hp
    have hkeys := (processGames_keys hpr).2
    have hinit := initMetricDicts_eq
      ((gs.map (fun g => g.release_year)).insertionSort (· ≤ ·))
      ((gs.map (fun g => g.owned_platform)).insertionSort (· ≤ ·))
    have hnodup : (dkeys cr.2).Nodup := by
      rw [hkeys, hinit]
      exact dkeys_dinsertAll_nodup _ _ _ (by simp [dkeys])
    have hmemk : p.1 ∈ dkeys cr.2 := List.mem_map.mpr ⟨p, hp, rfl⟩
    have hmemk2 : p.1 ∈ ratingKeysOf
        ((gs.map (fun g => g.release_year)).insertionSort (· ≤ ·))
        ((gs.map (fun g => g.owned_platform)).insertionSort (· ≤ ·)) := by
      rw [hkeys, hinit] at hmemk
      rcases (mem_dkeys_dinsertAll _ _ _ _).mp hmemk with h2 | h2
      · exact h2
      · simp [dkeys] at h2
    have hrt : p.1.1 ∈ RATINGS_ENUM := ((mem_ratingKeysOf _ _ _).mp hmemk2).1
    have hne : p.1.1 ≠ 0 := by
      simp [RATINGS_ENUM] at hrt
      omega
    refine ⟨hne, ?_⟩
    have hval : dlookup p.1 cr.2 = some p.2 :=
      dlookup_of_mem_nodup hnodup (by rw [show (p.1, p.2) = p from rfl]; exact hp)
    have hfold := processGames_rating_lookup hpr p.1 hne
    rw [initMetricDicts_snd_lookup, if_pos hmemk2] at hfold
    rw [hval] at hfold
    simp only [Option.map_some'] at hfold
    injection hfold with hfold
    rw [hfold]
    ring

/-- C10: for a record list whose statuses all lie in the six-literal
enumeration, the metrics writer raises a key-lookup error exactly when
some record carries a nonzero user rating outside the fixed 1–10 scale;
under the precondition that every nonzero rating is on the scale it
completes without error. -/
theorem metrics_rating_keyerror (gs : List Game)
    (hst : ∀ g ∈ gs, g.status ∈ gameStatusValues) :
    writePromMetrics gs = none ↔
      ∃ g ∈ gs, g.user_rating ≠ 0 ∧ g.user_rating ∉ RATINGS_ENUM := by
  rw [writePromMetrics_eq, Option.map_eq_none']
  apply processGames_none_iff
  · intro g hg
    rw [initMetricDicts_fst_lookup, if_pos]
    · rfl
    · rw [mem_countKeysOf]
      refine ⟨?_, ?_, hst g hg⟩
      · rw [(List.perm_insertionSort _ _).mem_iff]
        exact List.mem_map.mpr ⟨g, hg, rfl⟩
      · rw [(List.perm_insertionSort _ _).mem_iff]
        exact List.mem_map.mpr ⟨g, hg, rfl⟩
  · intro g hg
    rw [initMetricDicts_snd_lookup]
    by_cases hin : g.user_rating ∈ RATINGS_ENUM
    · rw [if_pos]
      · simp [hin]
      · rw [mem_ratingKeysOf]
        refine ⟨hin, ?_, ?_⟩
        · rw [(List.perm_insertionSort _ _).mem_iff]
          exact List.mem_map.mpr ⟨g, hg, rfl⟩
        · intro hnil
          have hlenp := (List.perm_insertionSort (· ≤ ·)
            (List.map (fun g => g.owned_platform) gs)).length_eq
          rw [hnil] at hlenp
          simp at hlenp
          rcases gs with _ | _
          · simp at hg
          · simp at hlenp
    · rw [if_neg]
      · simp [hin]
      · rw [mem_ratingKeysOf]
        rintro ⟨h1, _, _⟩
        exact hin h1

set_option maxRecDepth 8000 in
/-- Witness for C5: one record gives one year, one platform, 6 count
series and 10 rating series. -/
theorem metrics_dense_grid_witness :
    (writePromMetrics [mkGame 2020 "PS5" "Wanted" 0]).map
      (fun o => (o.countLines.length, o.ratingLines.length)) =
      some (6, 10) := by
  have hs : (writePromMetrics [mkGame 2020 "PS5" "Wanted" 0]).isSome = true := by
    decide
  obtain ⟨o, ho⟩ := Option.isSome_iff_exists.mp hs
  have hthm := metrics_dense_grid [mkGame 2020 "PS5" "Wanted" 0] o ho
  rw [ho]
  simp only [Option.map_some']
  rw [hthm.1, hthm.2]
  decide

set_option maxRecDepth 8000 in
/-- Witness for C6: a single record with rating 7 and year 2020; every
emitted rating series has a nonzero label and counts the matching
records. -/
theorem rating_aggregation_witness :
    (writePromMetrics [mkGame 2020 "PS5" "Wanted" 7]).map
      (fun o => o.ratings.all (fun p =>
        decide (p.1.1 ≠ 0) &&
        decide (p.2 = (([mkGame 2020 "PS5" "Wanted" 7].filter (fun g =>
          g.user_rating = p.1.1 ∧ g.release_year = p.1.2)).length : Int)))) =
      some true := by
  have hs : (writePromMetrics [mkGame 2020 "PS5" "Wanted" 7]).isSome = true := by
    decide
  obtain ⟨o, ho⟩ := Option.isSome_iff_exists.mp hs
  have hthm := rating_aggregation [mkGame 2020 "PS5" "Wanted" 7] o ho
  rw [ho]
  simp only [Option.map_some', Option.some.injEq]
  rw [List.all_eq_true]
  intro p hp
  have h2 := hthm p hp
  simp [h2.1, h2.2]

set_option maxRecDepth 8000 in
/-- Witness for C10: a record with the out-of-scale rating 11 makes the
writer fail. -/
theorem metrics_rating_keyerror_witness :
    (∀ g ∈ [mkGame 2020 "PS5" "Wanted" 11], g.status ∈ gameStatusValues) ∧
    writePromMetrics [mkGame 2020 "PS5" "Wanted" 11] = none :=
  ⟨by decide,
    (metrics_rating_keyerror [mkGame 2020 "PS5" "Wanted" 11] (by decide)).mpr
      ⟨mkGame 2020 "PS5" "Wanted" 11, List.Mem.head _, by decide, by decide⟩⟩
